import Mathlib

/-!
Verification of the RBAC (role-based access control) core of the CRM
repository: a shallow embedding of `app/repository/role.py`,
`app/core/authorization.py`, `app/core/init_auth.py` and the role-assignment
endpoint of `app/api/endpoints/admin.py`, together with theorems settling the
specification claims.

Modelling conventions:
* A MongoDB collection is a list of typed records in insertion ("natural")
  order; `find_one` is `List.find?`, `find` is `List.filter`,
  `insert_one` appends.
* A Mongo `_id` is either a plain string or a BSON ObjectId (the repository
  stores strings when it creates documents — `jsonable_encoder` serializes
  `PyObjectId` to `str` — but reads tolerate both forms).  `ObjectId(s)`
  is modelled by `toObjectId`, which normalizes hex case the way
  `str(ObjectId(s))` does.
* Datetimes are naturals ("now" is always an explicit parameter).
* Each collection carries a `Broken` flag modelling an unavailable storage
  backend: primitive lookups on a broken collection raise
  `DBErr.storageUnavailable`, and Python `try/except` blocks are modelled by
  catching the `Except` error.
* Constructing a pydantic model (`RoleDB(**doc)` etc.) validates the `_id`
  field through `PyObjectId`, whose core schema is
  `no_info_after_validator_function(cls.validate, str_schema())`: the raw
  value must first pass the **string** schema, which rejects a
  `bson.ObjectId` instance outright, so only string-typed `_id`s that are
  valid 24-hex ObjectId strings can validate; everything else raises.  This
  is modelled by `MongoId.parsed` and the `parse*` functions.
-/

set_option autoImplicit false

namespace CRM

/-- A Mongo document id: either a raw string key or a BSON ObjectId. -/
inductive MongoId where
  | str (s : String)
  | oid (s : String)
deriving DecidableEq, Repr

/-- Hexadecimal digit, either case (model of the characters accepted by
`bson.ObjectId.is_valid` on a 24-character string). -/
def isHexChar (c : Char) : Bool :=
  c.isDigit || (decide ('a' ≤ c) && decide (c ≤ 'f')) || (decide ('A' ≤ c) && decide (c ≤ 'F'))

/-- Model of `ObjectId.is_valid(s)` for a string argument: 24 hex characters. -/
def isValidObjectId (s : String) : Bool :=
  s.data.length == 24 && s.data.all isHexChar

/-- ASCII-lowercase a hex character (as `str(ObjectId(s))` renders hex in
lower case). -/
def lowerHexChar (c : Char) : Char :=
  if decide ('A' ≤ c) && decide (c ≤ 'F') then Char.ofNat (c.toNat + 32) else c

/-- Lowercase a hex string. -/
def lowerHex (s : String) : String := ⟨s.data.map lowerHexChar⟩

/-- Model of `ObjectId(s)` applied to a valid 24-hex-character string. -/
def toObjectId (s : String) : MongoId := .oid (lowerHex s)

/-- The id string produced by validating a stored `_id` through `PyObjectId`
and rendering it with `str(...)`.  A stored string id must be a valid
ObjectId string (else `cls.validate` raises); a stored BSON ObjectId is
rejected by the preceding `str_schema()` itself (pydantic v2 lax string
validation does not accept arbitrary objects), so ObjectId-keyed documents
never validate. -/
def MongoId.parsed : MongoId → Option String
  | .str s => if isValidObjectId s then some (lowerHex s) else none
  | .oid _ => none

/-- `PermissionDB` (`app/model/role.py`). -/
structure Permission where
  _id : MongoId
  name : String
  resource : String
  action : String
  description : Option String
  createdAt : Nat
deriving DecidableEq, Repr

/-- `RoleDB` (`app/model/role.py`). -/
structure Role where
  _id : MongoId
  name : String
  description : Option String
  permissions : List String
  isSystemRole : Bool
  createdAt : Nat
deriving DecidableEq, Repr

/-- `UserRoleDB` (`app/model/role.py`): a user-role assignment. -/
structure Assignment where
  _id : MongoId
  userId : String
  roleId : String
  grantedBy : String
  grantedAt : Nat
  expiresAt : Option Nat
deriving DecidableEq, Repr

/-- `UserDB` (`app/model/user.py`). -/
structure User where
  _id : MongoId
  email : String
  hashedPassword : String
  username : String
  isActive : Bool
  createdAt : Nat
deriving DecidableEq, Repr

/-- `str(role.id)` after pydantic validation. -/
def Role.idStr (r : Role) : String := (r._id.parsed).getD ""

/-- `str(permission.id)` after pydantic validation. -/
def Permission.idStr (p : Permission) : String := (p._id.parsed).getD ""

/-- `str(user.id)` after pydantic validation. -/
def User.idStr (u : User) : String := (u._id.parsed).getD ""

/-- Errors raised by the storage layer or by pydantic model validation. -/
inductive DBErr where
  | storageUnavailable
  | invalidId
  | parseFailure
  | duplicateKey
deriving DecidableEq, Repr

instance {ε α : Type} [DecidableEq ε] [DecidableEq α] : DecidableEq (Except ε α)
  | .ok a, .ok b =>
    if h : a = b then isTrue (by rw [h]) else isFalse (by simp [h])
  | .ok _, .error _ => isFalse (by simp)
  | .error _, .ok _ => isFalse (by simp)
  | .error e, .error f =>
    if h : e = f then isTrue (by rw [h]) else isFalse (by simp [h])

/-- The persistent state: the three RBAC collections plus the user
collection, per-collection availability flags, and a counter from which
fresh ObjectIds are drawn. -/
structure DB where
  permissions : List Permission
  roles : List Role
  userRoles : List Assignment
  users : List User
  permsBroken : Bool
  rolesBroken : Bool
  userRolesBroken : Bool
  usersBroken : Bool
  nextId : Nat
deriving DecidableEq, Repr

/-- A healthy store (no collection broken). -/
def mkDB (ps : List Permission) (rs : List Role) (urs : List Assignment)
    (us : List User) : DB :=
  ⟨ps, rs, urs, us, false, false, false, false, 0⟩

/-- `find_one` on the roles collection. -/
def findOneRole (db : DB) (p : Role → Bool) : Except DBErr (Option Role) :=
  if db.rolesBroken then .error .storageUnavailable else .ok (db.roles.find? p)

/-- `find` on the roles collection. -/
def findRoles (db : DB) (p : Role → Bool) : Except DBErr (List Role) :=
  if db.rolesBroken then .error .storageUnavailable else .ok (db.roles.filter p)

/-- `find_one` on the permissions collection. -/
def findOnePerm (db : DB) (p : Permission → Bool) : Except DBErr (Option Permission) :=
  if db.permsBroken then .error .storageUnavailable else .ok (db.permissions.find? p)

/-- `find` on the permissions collection. -/
def findPerms (db : DB) (p : Permission → Bool) : Except DBErr (List Permission) :=
  if db.permsBroken then .error .storageUnavailable else .ok (db.permissions.filter p)

/-- `find_one` on the user-roles collection. -/
def findOneAssignment (db : DB) (p : Assignment → Bool) : Except DBErr (Option Assignment) :=
  if db.userRolesBroken then .error .storageUnavailable else .ok (db.userRoles.find? p)

/-- `find` on the user-roles collection. -/
def findAssignments (db : DB) (p : Assignment → Bool) : Except DBErr (List Assignment) :=
  if db.userRolesBroken then .error .storageUnavailable else .ok (db.userRoles.filter p)

/-- `find_one` on the users collection. -/
def findOneUser (db : DB) (p : User → Bool) : Except DBErr (Option User) :=
  if db.usersBroken then .error .storageUnavailable else .ok (db.users.find? p)

/-- `update_one`: rewrite the first record matching `p` with `f`; the
returned flag models `modified_count > 0` (Mongo counts a document as
modified only when the update actually changed it). -/
def updateFirst {α : Type} [DecidableEq α] (p : α → Bool) (f : α → α) :
    List α → List α × Bool
  | [] => ([], false)
  | x :: xs =>
    if p x then ((f x) :: xs, decide (f x ≠ x))
    else
      let r := updateFirst p f xs
      (x :: r.1, r.2)

/-- Pydantic validation of a stored role document (`RoleDB(**doc)`): the
`_id` must be a string-typed valid ObjectId string; documents with a BSON
ObjectId `_id` fail the str-schema and raise. -/
def parseRole (r : Role) : Except DBErr Role :=
  if (r._id.parsed).isSome then .ok r else .error .parseFailure

/-- Pydantic validation of a stored permission document (same str-schema
rule as roles). -/
def parsePermission (p : Permission) : Except DBErr Permission :=
  if (p._id.parsed).isSome then .ok p else .error .parseFailure

/-- Pydantic validation of a stored assignment document (same str-schema
rule as roles). -/
def parseAssignment (a : Assignment) : Except DBErr Assignment :=
  if (a._id.parsed).isSome then .ok a else .error .parseFailure

/-! ## `RoleRepository` (`app/repository/role.py`) -/

/-- `RoleRepository.get_by_id`: try the raw string id first ("current
database format"), then the ObjectId form; any exception — storage failure
or model-validation failure — is caught and turned into `None`. -/
def RoleRepository.get_by_id (db : DB) (id : String) : Option Role :=
  let attempt : Except DBErr (Option Role) := do
    let m ← findOneRole db (fun r => r._id == MongoId.str id)
    match m with
    | some r => do
      let r ← parseRole r
      return some r
    | none =>
      if isValidObjectId id then do
        let m2 ← findOneRole db (fun r => r._id == toObjectId id)
        match m2 with
        | some r => do
          let r ← parseRole r
          return some r
        | none => return none
      else
        return none
  match attempt with
  | .ok v => v
  | .error _ => none

/-- `RoleRepository.get_role_by_name` (no exception handler: failures
propagate). -/
def RoleRepository.get_role_by_name (db : DB) (name : String) :
    Except DBErr (Option Role) := do
  let ro ← findOneRole db (fun r => r.name == name)
  match ro with
  | some r => do
    let r ← parseRole r
    return some r
  | none => return none

/-- `RoleRepository.get_role_by_id` delegates to `get_by_id`. -/
def RoleRepository.get_role_by_id (db : DB) (id : String) : Option Role :=
  RoleRepository.get_by_id db id

/-- `RoleRepository.get_roles_for_user`: collects the assignments of the
user (with **no** expiry filter), converts each `role_id` with
`ObjectId(...)` (raising on an invalid id), and fetches the role documents
whose `_id` is among the converted ObjectIds. -/
def RoleRepository.get_roles_for_user (db : DB) (userId : String) :
    Except DBErr (List Role) := do
  let assigns ← findAssignments db (fun a => a.userId == userId)
  let roleIds ← assigns.mapM (fun a =>
    if isValidObjectId a.roleId then Except.ok (toObjectId a.roleId)
    else Except.error DBErr.invalidId)
  let rolesData ← findRoles db (fun r => roleIds.contains r._id)
  rolesData.mapM parseRole

/-- `RoleRepository.create` / `create_role`: insert the encoded document
(`jsonable_encoder` turns the `PyObjectId` into its *string* form, so the
stored `_id` is a string), read it back and validate it.  Mongo rejects a
duplicate `_id` on insert. -/
def RoleRepository.create_role (db : DB) (r : Role) : Except DBErr (DB × Role) :=
  if db.rolesBroken then .error .storageUnavailable
  else if db.roles.any (fun x => x._id == r._id) then .error .duplicateKey
  else do
    let created ← parseRole r
    return ({ db with roles := db.roles ++ [r] }, created)

/-- `RoleRepository.add_permission_to_role`: `update_one` keyed by
`ObjectId(role_id)` (raising on an invalid id) with `$addToSet`, which
appends the value only when absent. -/
def RoleRepository.add_permission_to_role (db : DB) (roleId permissionId : String) :
    Except DBErr (DB × Bool) :=
  if isValidObjectId roleId then
    if db.rolesBroken then .error .storageUnavailable
    else
      let r := updateFirst (fun r => r._id == toObjectId roleId)
        (fun r =>
          if permissionId ∈ r.permissions then r
          else { r with permissions := r.permissions ++ [permissionId] }) db.roles
      .ok ({ db with roles := r.1 }, r.2)
  else .error .invalidId

/-- `RoleRepository.remove_permission_from_role`: `update_one` keyed by
`ObjectId(role_id)` with `$pull`, which removes every occurrence. -/
def RoleRepository.remove_permission_from_role (db : DB) (roleId permissionId : String) :
    Except DBErr (DB × Bool) :=
  if isValidObjectId roleId then
    if db.rolesBroken then .error .storageUnavailable
    else
      let r := updateFirst (fun r => r._id == toObjectId roleId)
        (fun r => { r with permissions := r.permissions.filter (fun p => p != permissionId) })
        db.roles
      .ok ({ db with roles := r.1 }, r.2)
  else .error .invalidId

/-! ## `PermissionRepository` (`app/repository/role.py`) -/

/-- `PermissionRepository.get_by_id`: same dual-format, exception-swallowing
lookup as the role version. -/
def PermissionRepository.get_by_id (db : DB) (id : String) : Option Permission :=
  let attempt : Except DBErr (Option Permission) := do
    let m ← findOnePerm db (fun p => p._id == MongoId.str id)
    match m with
    | some p => do
      let p ← parsePermission p
      return some p
    | none =>
      if isValidObjectId id then do
        let m2 ← findOnePerm db (fun p => p._id == toObjectId id)
        match m2 with
        | some p => do
          let p ← parsePermission p
          return some p
        | none => return none
      else
        return none
  match attempt with
  | .ok v => v
  | .error _ => none

/-- `PermissionRepository.get_permission_by_name`. -/
def PermissionRepository.get_permission_by_name (db : DB) (name : String) :
    Except DBErr (Option Permission) := do
  let po ← findOnePerm db (fun p => p.name == name)
  match po with
  | some p => do
    let p ← parsePermission p
    return some p
  | none => return none

/-- `PermissionRepository.create` / `create_permission` (string `_id`, like
role creation). -/
def PermissionRepository.create_permission (db : DB) (p : Permission) :
    Except DBErr (DB × Permission) :=
  if db.permsBroken then .error .storageUnavailable
  else if db.permissions.any (fun x => x._id == p._id) then .error .duplicateKey
  else do
    let created ← parsePermission p
    return ({ db with permissions := db.permissions ++ [p] }, created)

/-- `PermissionRepository.get_permissions_by_ids`: a `$in` query on the raw
string ids, then — only when some requested ids were not found — a second
`$in` query on the ObjectId forms of the missing ids; every exception is
caught and turned into `[]`. -/
def PermissionRepository.get_permissions_by_ids (db : DB) (permissionIds : List String) :
    List Permission :=
  let attempt : Except DBErr (List Permission) := do
    let permsData ← findPerms db (fun p => permissionIds.any (fun i => p._id == MongoId.str i))
    let results ← permsData.mapM parsePermission
    if results.length < permissionIds.length then
      let foundIds := results.map Permission.idStr
      let missingIds := permissionIds.filter (fun pid => !(foundIds.contains pid))
      let objectIds := (missingIds.filter isValidObjectId).map toObjectId
      if objectIds.isEmpty then
        return results
      else do
        let additionalData ← findPerms db (fun p => objectIds.contains p._id)
        let additional ← additionalData.mapM parsePermission
        return results ++ additional
    else
      return results
  match attempt with
  | .ok v => v
  | .error _ => []

/-- `PermissionRepository.get_permissions_for_user`: union of the permission
ids of the user's roles, deduplicated with `list(set(...))` (modelled by
`List.dedup`; the repository's observable output does not depend on the
arbitrary iteration order of a Python set), resolved in bulk. -/
def PermissionRepository.get_permissions_for_user (db : DB) (userId : String) :
    Except DBErr (List Permission) := do
  let userRoles ← RoleRepository.get_roles_for_user db userId
  let permissionIds := userRoles.foldl (fun acc r => acc ++ r.permissions) []
  let uniquePermissionIds := permissionIds.dedup
  if uniquePermissionIds.isEmpty then
    return []
  else
    return PermissionRepository.get_permissions_by_ids db uniquePermissionIds

/-! ## `UserRoleRepository` (`app/repository/role.py`) -/

/-- `UserRoleRepository.assign_role_to_user` (= `create`): insert the
encoded assignment (string `_id`), read it back and validate it. -/
def UserRoleRepository.assign_role_to_user (db : DB) (a : Assignment) :
    Except DBErr (DB × Assignment) :=
  if db.userRolesBroken then .error .storageUnavailable
  else if db.userRoles.any (fun x => x._id == a._id) then .error .duplicateKey
  else do
    let created ← parseAssignment a
    return ({ db with userRoles := db.userRoles ++ [a] }, created)

/-- `UserRoleRepository.get_user_role_assignment`: exact match on the
`(user_id, role_id)` string pair — **no** expiry filter. -/
def UserRoleRepository.get_user_role_assignment (db : DB) (userId roleId : String) :
    Except DBErr (Option Assignment) := do
  let ao ← findOneAssignment db (fun a => a.userId == userId && a.roleId == roleId)
  match ao with
  | some a => do
    let a ← parseAssignment a
    return some a
  | none => return none

/-- `UserRoleRepository.user_has_role`: resolve the role by name, then look
for **any** `(user_id, role_id)` assignment — expired or not. -/
def UserRoleRepository.user_has_role (db : DB) (userId roleName : String) :
    Except DBErr Bool := do
  let role ← RoleRepository.get_role_by_name db roleName
  match role with
  | none => return false
  | some role => do
    let assignment ← UserRoleRepository.get_user_role_assignment db userId role.idStr
    return assignment.isSome

/-- Does the assignment have a (date-typed) `expires_at` strictly before
`now`?  Mongo's `$lt` on a date value matches only date-typed fields, so a
missing/`null` `expires_at` never matches. -/
def expiredBefore (now : Nat) (a : Assignment) : Bool :=
  match a.expiresAt with
  | some t => t < now
  | none => false

/-- `AuthorizationService.user_has_role`. -/
def AuthorizationService.user_has_role (db : DB) (userId roleName : String) :
    Except DBErr Bool :=
  UserRoleRepository.user_has_role db userId roleName

/-- `AuthorizationService.user_has_permission`: admin bypass first, then
membership of the permission name in the resolved permission records. -/
def AuthorizationService.user_has_permission (db : DB) (userId permissionName : String) :
    Except DBErr Bool := do
  let isAdmin ← AuthorizationService.user_has_role db userId "admin"
  if isAdmin then
    return true
  else do
    let userPermissions ← PermissionRepository.get_permissions_for_user db userId
    return userPermissions.any (fun p => p.name == permissionName)

/-- `AuthorizationService.get_user_roles`: names of the roles resolved for
the user. -/
def AuthorizationService.get_user_roles (db : DB) (userId : String) :
    Except DBErr (List String) := do
  let userRoles ← RoleRepository.get_roles_for_user db userId
  return userRoles.map Role.name

/-- `AuthorizationService.get_user_permissions`: names of the permissions
resolved for the user. -/
def AuthorizationService.get_user_permissions (db : DB) (userId : String) :
    Except DBErr (List String) := do
  let ps ← PermissionRepository.get_permissions_for_user db userId
  return ps.map Permission.name

/-! ## User store (spec-modelled)

`app/repository/user.py` (and `app/repository/base.py`) are not present in
the source tree; only their callers are.  The operations below are therefore
modelled from the spec. -/

/-- Modelled from the spec: the user store is an external collaborator; the
admin endpoint validates that the target account exists by id
(`UserRepository.get_by_id`, absent from `src/`).  Modelled as an id-keyed
lookup on the validated id string. -/
def UserRepository.get_by_id (db : DB) (id : String) : Except DBErr (Option User) :=
  findOneUser db (fun u => u.idStr == id)

/-- Modelled from the spec: bootstrap must "create a default admin account
if absent", keyed by account name (`UserRepository.get_by_name`, absent from
`src/`).  Modelled as a username-keyed lookup. -/
def UserRepository.get_by_name (db : DB) (name : String) : Except DBErr (Option User) :=
  findOneUser db (fun u => u.username == name)

/-- Modelled from the spec: account creation in the user store
(`UserRepository.create`, absent from `src/`): insert the document and
return it. -/
def UserRepository.create (db : DB) (u : User) : Except DBErr (DB × User) :=
  if db.usersBroken then .error .storageUnavailable
  else if db.users.any (fun x => x._id == u._id) then .error .duplicateKey
  else .ok ({ db with users := db.users ++ [u] }, u)

/-! ## Fresh ObjectIds

`PyObjectId`'s default factory generates a fresh BSON ObjectId; the model
draws deterministic, pairwise-distinct 24-hex-character ids from the
`nextId` counter. -/

/-- The `n`-th lowercase hex digit character (`n < 16`). -/
def hexDigit (n : Nat) : Char :=
  if n < 10 then Char.ofNat (48 + n) else Char.ofNat (87 + n)

/-- `k` hex digits of `n`, most significant first (left-padded with 0). -/
def freshHexAux : Nat → Nat → List Char
  | 0, _ => []
  | k + 1, n => freshHexAux k (n / 16) ++ [hexDigit (n % 16)]

/-- A fresh 24-character lowercase hex ObjectId string. -/
def freshHex (n : Nat) : String := ⟨freshHexAux 24 n⟩

/-! ## Role-assignment endpoint (`app/api/endpoints/admin.py`) -/

/-- Endpoint-level failures: HTTP 404 (user or role not found), HTTP 400
(duplicate assignment — the `AlreadyGranted` conflict), or a propagated
store failure (HTTP 500). -/
inductive ApiErr where
  | notFound
  | alreadyGranted
  | dbFailed (e : DBErr)
deriving DecidableEq, Repr

/-- Lift a store-layer result into the endpoint error type. -/
def liftDB {α : Type} : Except DBErr α → Except ApiErr α
  | .ok v => .ok v
  | .error e => .error (.dbFailed e)

/-- `assign_role_to_user` (admin endpoint): validate that the user and the
role exist, reject when **any** `(user_id, role_id)` assignment already
exists (expired or not), otherwise insert a fresh assignment with
`granted_at = now` and the requested `expires_at`. -/
def assign_role_to_user_endpoint (db : DB) (now : Nat)
    (currentUserId userId roleId : String) (expiresAt : Option Nat) :
    Except ApiErr (DB × Assignment) := do
  let user ← liftDB (UserRepository.get_by_id db userId)
  if user.isNone then
    throw ApiErr.notFound
  else
    match RoleRepository.get_role_by_id db roleId with
    | none => throw ApiErr.notFound
    | some _role => do
      let existingAssignment ←
        liftDB (UserRoleRepository.get_user_role_assignment db userId roleId)
      if existingAssignment.isSome then
        throw ApiErr.alreadyGranted
      else do
        let userRole : Assignment :=
          { _id := MongoId.str (freshHex db.nextId)
            userId := userId
            roleId := roleId
            grantedBy := currentUserId
            grantedAt := now
            expiresAt := expiresAt }
        let db := { db with nextId := db.nextId + 1 }
        liftDB (UserRoleRepository.assign_role_to_user db userRole)

/-! ## Bootstrap (`app/core/init_auth.py`, catalog from `app/core/config.py`) -/

/-- One entry of the `DEFAULT_PERMISSIONS` catalog. -/
structure PermCfg where
  name : String
  resource : String
  action : String
  description : String
deriving DecidableEq, Repr

/-- `DEFAULT_PERMISSIONS` from `app/core/config.py`. -/
def DEFAULT_PERMISSIONS : List PermCfg :=
  [⟨"read_users", "users", "read", "Read user information"⟩,
   ⟨"write_users", "users", "write", "Create and update users"⟩,
   ⟨"delete_users", "users", "delete", "Delete users"⟩,
   ⟨"read_posts", "posts", "read", "Read posts"⟩,
   ⟨"write_posts", "posts", "write", "Create and update posts"⟩,
   ⟨"delete_posts", "posts", "delete", "Delete posts"⟩,
   ⟨"manage_roles", "roles", "manage", "Manage user roles and permissions"⟩,
   ⟨"read_admin", "admin", "read", "Access admin dashboard"⟩,
   ⟨"manage_profile", "student_profile", "manage", "Manage student profile"⟩,
   ⟨"upload_documents", "documents", "upload", "Upload documents and images"⟩,
   ⟨"apply_colleges", "applications", "apply", "Apply to colleges"⟩,
   ⟨"track_applications", "applications", "read", "Track application status"⟩]

/-- One role configuration built by `initialize_roles`. -/
structure RoleCfg where
  name : String
  description : String
  permissions : List String
  isSystemRole : Bool
deriving DecidableEq, Repr

/-- The `role_configs` list of `initialize_roles`.  The three permission
filters are faithful to the source comprehensions, whose
`if str(pid) == str(pid)` guard is always true: each `any(...)` ranges over
the whole catalog and so does not depend on `pid` at all (e.g. the
moderator list is empty whenever the catalog contains `delete_users` or
`manage_roles`). -/
def role_configs (permissionIds : List String) : List RoleCfg :=
  [⟨"admin", "Full system administrator with all permissions", permissionIds, true⟩,
   ⟨"moderator", "Moderator with limited administrative permissions",
     permissionIds.filter (fun _pid =>
       !(DEFAULT_PERMISSIONS.any (fun perm => ["delete_users", "manage_roles"].contains perm.name))),
     true⟩,
   ⟨"user", "Standard user with basic permissions",
     permissionIds.filter (fun _pid =>
       DEFAULT_PERMISSIONS.any (fun perm => ["read_users", "read_posts", "write_posts"].contains perm.name)),
     true⟩,
   ⟨"student", "Student with profile management and application permissions",
     permissionIds.filter (fun _pid =>
       DEFAULT_PERMISSIONS.any (fun perm =>
         ["manage_profile", "upload_documents", "apply_colleges", "track_applications",
          "read_posts"].contains perm.name)),
     true⟩]

/-- The loop body of `InitializationService.initialize_permissions`: for
each catalog entry, create the permission when no permission of that name
exists, else reuse the existing id. -/
def initPermsAux (db : DB) (now : Nat) :
    List PermCfg → Except DBErr (DB × List String)
  | [] => .ok (db, [])
  | cfg :: rest => do
    let existingPerm ← PermissionRepository.get_permission_by_name db cfg.name
    match existingPerm with
    | none => do
      let permission : Permission :=
        { _id := MongoId.str (freshHex db.nextId)
          name := cfg.name
          resource := cfg.resource
          action := cfg.action
          description := some cfg.description
          createdAt := now }
      let db := { db with nextId := db.nextId + 1 }
      let r ← PermissionRepository.create_permission db permission
      let rest ← initPermsAux r.1 now rest
      return (rest.1, r.2.idStr :: rest.2)
    | some p => do
      let rest ← initPermsAux db now rest
      return (rest.1, p.idStr :: rest.2)

/-- `InitializationService.initialize_permissions`. -/
def InitializationService.initialize_permissions (db : DB) (now : Nat) :
    Except DBErr (DB × List String) :=
  initPermsAux db now DEFAULT_PERMISSIONS

/-- The loop body of `InitializationService.initialize_roles`: for each role
configuration, create the role when no role of that name exists, else reuse
the existing id; `role_ids` is accumulated in iteration order. -/
def initRolesAux (db : DB) (now : Nat) :
    List RoleCfg → Except DBErr (DB × List (String × String))
  | [] => .ok (db, [])
  | cfg :: rest => do
    let existingRole ← RoleRepository.get_role_by_name db cfg.name
    match existingRole with
    | none => do
      let role : Role :=
        { _id := MongoId.str (freshHex db.nextId)
          name := cfg.name
          description := some cfg.description
          permissions := cfg.permissions
          isSystemRole := cfg.isSystemRole
          createdAt := now }
      let db := { db with nextId := db.nextId + 1 }
      let r ← RoleRepository.create_role db role
      let rest ← initRolesAux r.1 now rest
      return (rest.1, (cfg.name, r.2.idStr) :: rest.2)
    | some r => do
      let rest ← initRolesAux db now rest
      return (rest.1, (cfg.name, r.idStr) :: rest.2)

/-- `InitializationService.initialize_roles`. -/
def InitializationService.initialize_roles (db : DB) (now : Nat)
    (permissionIds : List String) : Except DBErr (DB × List (String × String)) :=
  initRolesAux db now (role_configs permissionIds)

/-- Modelled from the spec: password hashing (`get_password_hash` lives in
`app/core/security.py`, absent from `src/`); the hash value itself is
irrelevant to every claim. -/
def get_password_hash (s : String) : String := "hash:" ++ s

/-- `InitializationService.create_admin_user`: create the `admin` account
when absent and grant it the admin role; when the account exists, grant the
admin role only if no `(admin, admin_role_id)` assignment exists yet. -/
def InitializationService.create_admin_user (db : DB) (now : Nat)
    (adminRoleId : String) : Except DBErr (DB × User) := do
  let existingAdmin ← UserRepository.get_by_name db "admin"
  match existingAdmin with
  | none => do
    let adminUser : User :=
      { _id := MongoId.str (freshHex db.nextId)
        email := "admin@example.com"
        hashedPassword := get_password_hash "admin123"
        username := "admin"
        isActive := true
        createdAt := now }
    let db := { db with nextId := db.nextId + 1 }
    let r ← UserRepository.create db adminUser
    let userRole : Assignment :=
      { _id := MongoId.str (freshHex r.1.nextId)
        userId := r.2.idStr
        roleId := adminRoleId
        grantedBy := r.2.idStr
        grantedAt := now
        expiresAt := none }
    let db2 := { r.1 with nextId := r.1.nextId + 1 }
    let r2 ← UserRoleRepository.assign_role_to_user db2 userRole
    return (r2.1, r.2)
  | some existingAdmin => do
    let adminAssignment ←
      UserRoleRepository.get_user_role_assignment db existingAdmin.idStr adminRoleId
    if adminAssignment.isNone then do
      let userRole : Assignment :=
        { _id := MongoId.str (freshHex db.nextId)
          userId := existingAdmin.idStr
          roleId := adminRoleId
          grantedBy := existingAdmin.idStr
          grantedAt := now
          expiresAt := none }
      let db := { db with nextId := db.nextId + 1 }
      let r ← UserRoleRepository.assign_role_to_user db userRole
      return (r.1, existingAdmin)
    else
      return (db, existingAdmin)

/-- `InitializationService.initialize_authorization_system`: permissions,
then roles, then the admin account.  `role_ids[DEFAULT_ADMIN_ROLE]` — the
admin entry is always present since the admin configuration is processed
unconditionally; the `getD` default is never reached. -/
def InitializationService.initialize_authorization_system (db : DB) (now : Nat) :
    Except DBErr (DB × List String × List (String × String) × String) := do
  let rp ← InitializationService.initialize_permissions db now
  let rr ← InitializationService.initialize_roles rp.1 now rp.2
  let adminRoleId := ((rr.2.find? (fun x => x.1 == "admin")).map Prod.snd).getD ""
  let ra ← InitializationService.create_admin_user rr.1 now adminRoleId
  return (ra.1, rp.2, rr.2, ra.2.idStr)

def hexA : String := "aaaaaaaaaaaaaaaaaaaaaaaa"

def hexB : String := "bbbbbbbbbbbbbbbbbbbbbbbb"

def hexC : String := "cccccccccccccccccccccccc"

def hexD : String := "dddddddddddddddddddddddd"

def hexE : String := "eeeeeeeeeeeeeeeeeeeeeeee"

def permWU : Permission := ⟨.str hexB, "write_users", "users", "write", none, 0⟩

def asgU7 : Assignment := ⟨.str hexC, "u7", hexD, "g", 0, none⟩

/-! ## Concrete stores used by the claim theorems -/

/-- A `moderator` role stored under its string id — the format the
repository's own `create_role` writes — carrying one permission
reference. -/
def moderatorRole : Role := ⟨.str hexA, "moderator", none, [hexB], false, 0⟩

/-- The permission referenced by `moderatorRole`, stored under its string id
(the format the repository's own `create` writes). -/
def readPostsPerm : Permission := ⟨.str hexB, "read_posts", "posts", "read", none, 0⟩

/-- An assignment of `moderatorRole` to user `u2` that expired at time 5. -/
def expiredModAssignment : Assignment := ⟨.str hexC, "u2", hexA, "granter", 0, some 5⟩

/-- The store of the spec §8 expiry scenario: the only assignment for `u2`
is expired. -/
def dbExpired : DB := mkDB [readPostsPerm] [moderatorRole] [expiredModAssignment] []

/-- The `admin` role, stored string-keyed as the repository's own
`create_role` writes it. -/
def adminRoleW : Role := ⟨.str hexA, "admin", none, [], true, 0⟩

/-- A non-expired (at `now = 100`) assignment of the admin role to user
`ua`. -/
def adminAsgW : Assignment := ⟨.str hexC, "ua", hexA, "g", 0, some 500⟩

/-- Store for the C2 witness: no permission named `no_such_permission`
exists anywhere. -/
def dbAdminW : DB := mkDB [] [adminRoleW] [adminAsgW] []

/-- A `viewer` role stored string-keyed, as `create_role` writes it. -/
def viewerRoleW : Role := ⟨.str hexA, "viewer", none, [], false, 0⟩

/-- The target account of the re-grant scenario. -/
def targetUserW : User := ⟨.str hexD, "t@example.com", "h", "tuser", true, 0⟩

/-- An assignment of `viewer` to `targetUserW` that expired at time 5. -/
def expiredViewerAsg : Assignment := ⟨.str hexC, hexD, hexA, "g", 0, some 5⟩

/-- Store for the C3 evaluation: the only `(user, role)` assignment is long
expired. -/
def dbRegrant : DB := mkDB [] [viewerRoleW] [expiredViewerAsg] [targetUserW]

/-- Store for the C6 counterexample: one role, stored — like every role this
repository's own `create_role` writes — under its **string** id. -/
def dbStrRole : DB := mkDB [] [viewerRoleW] [] []

/-- A role matched in the `oid` pass for the permission-set witness. -/
def oidRoleW : Role := ⟨.oid hexA, "editor", none, [], false, 0⟩

/-- Store with a single ObjectId-keyed role. -/
def dbOidRole : DB := mkDB [] [oidRoleW] [] []

/-- The roles that `get_roles_for_user` resolves for a user: the stored
roles whose `_id` is among the ObjectId forms of the user's assignment
`role_id`s. -/
def resolvedRoles (db : DB) (u : String) : List Role :=
  db.roles.filter (fun r =>
    ((db.userRoles.filter (fun a => a.userId == u)).map
      (fun a => toObjectId a.roleId)).contains r._id)

/-- Store for the C4 witness: the role collection is unavailable. -/
def dbRolesDown : DB := { mkDB [] [] [] [] with rolesBroken := true }

/-- Permissions for the tolerant-resolution witness store. -/
def permRU : Permission := ⟨.str hexA, "read_users", "users", "read", none, 0⟩

/-- A role referencing one existing permission (`hexA`) and one dangling id
(`hexE`); it is ObjectId-keyed, the only format the ObjectId `$in` role
query can match — and therefore a format that fails model validation. -/
def roleV2 : Role := ⟨.oid hexD, "viewer2", none, [hexA, hexE], false, 0⟩

/-- Store for C7: string-keyed permissions, a dangling permission reference
inside the user's (ObjectId-keyed, hence unvalidatable) role. -/
def dbTolerant : DB := mkDB [permRU, permWU] [roleV2] [asgU7] []

/-! ## General lemmas about the store primitives -/

theorem updateFirst_no_match {α : Type} [DecidableEq α] (p : α → Bool) (f : α → α)
    (l : List α) (h : ∀ x ∈ l, p x = false) : updateFirst p f l = (l, false) := by
  induction l with
  | nil => rfl
  | cons x xs ih =>
    simp only [updateFirst, h x (by simp), Bool.false_eq_true, if_false]
    simp [ih (fun y hy => h y (by simp [hy]))]

theorem updateFirst_found {α : Type} [DecidableEq α] (p : α → Bool) (f : α → α)
    (pre : List α) (x : α) (post : List α)
    (hpre : ∀ y ∈ pre, p y = false) (hx : p x = true) :
    updateFirst p f (pre ++ x :: post) = (pre ++ f x :: post, decide (f x ≠ x)) := by
  induction pre with
  | nil => simp [updateFirst, hx]
  | cons y ys ih =>
    simp only [List.cons_append, updateFirst, hpre y (by simp), Bool.false_eq_true, if_false]
    simp [ih (fun z hz => hpre z (by simp [hz]))]

theorem updateFirst_idem {α : Type} [DecidableEq α] (p : α → Bool) (f : α → α)
    (hp : ∀ x, p (f x) = p x) (hf : ∀ x, f (f x) = f x) (l : List α) :
    updateFirst p f (updateFirst p f l).1 = ((updateFirst p f l).1, false) := by
  induction l with
  | nil => rfl
  | cons x xs ih =>
    cases hpx : p x with
    | true => simp [updateFirst, hpx, hp, hf]
    | false =>
      simp only [updateFirst, hpx, Bool.false_eq_true, if_false]
      rw [ih]

theorem mapM_parseRole_ok (l : List Role) (h : ∀ r ∈ l, (r._id.parsed).isSome = true) :
    l.mapM parseRole = Except.ok l := by
  induction l with
  | nil => rfl
  | cons x xs ih =>
    have hx := h x (by simp)
    have hxs := ih (fun r hr => h r (by simp [hr]))
    rw [List.mapM_cons, show parseRole x = Except.ok x by simp [parseRole, hx], hxs]
    rfl

theorem mapM_parsePermission_ok (l : List Permission)
    (h : ∀ q ∈ l, (q._id.parsed).isSome = true) :
    l.mapM parsePermission = Except.ok l := by
  induction l with
  | nil => rfl
  | cons x xs ih =>
    have hx := h x (by simp)
    have hxs := ih (fun q hq => h q (by simp [hq]))
    rw [List.mapM_cons, show parsePermission x = Except.ok x by simp [parsePermission, hx], hxs]
    rfl

theorem mapM_roleId_toObjectId_ok (l : List Assignment)
    (h : ∀ a ∈ l, isValidObjectId a.roleId = true) :
    (l.mapM (fun a =>
      if isValidObjectId a.roleId then Except.ok (toObjectId a.roleId)
      else Except.error DBErr.invalidId))
      = Except.ok (l.map (fun a => toObjectId a.roleId)) := by
  induction l with
  | nil => rfl
  | cons x xs ih =>
    have hx := h x (by simp)
    have hxs := ih (fun a ha => h a (by simp [ha]))
    rw [List.mapM_cons, if_pos hx, hxs]
    rfl

/-! ## Fresh ids are well-formed -/

theorem freshHexAux_length (k n : Nat) : (freshHexAux k n).length = k := by
  induction k generalizing n with
  | zero => rfl
  | succ k ih => simp [freshHexAux, ih]

theorem hexDigit_wf (n : Nat) (h : n < 16) :
    isHexChar (hexDigit n) = true ∧ lowerHexChar (hexDigit n) = hexDigit n := by
  interval_cases n <;> exact ⟨by decide, by decide⟩

theorem freshHexAux_wf (k n : Nat) :
    ∀ c ∈ freshHexAux k n, isHexChar c = true ∧ lowerHexChar c = c := by
  induction k generalizing n with
  | zero => intro c hc; cases hc
  | succ k ih =>
    intro c hc
    simp only [freshHexAux, List.mem_append, List.mem_singleton] at hc
    rcases hc with hc | hc
    · exact ih (n / 16) c hc
    · subst hc; exact hexDigit_wf (n % 16) (Nat.mod_lt _ (by norm_num))

theorem freshHex_valid (n : Nat) : isValidObjectId (freshHex n) = true := by
  have h1 : (freshHex n).data.length = 24 := freshHexAux_length 24 n
  have h2 : (freshHex n).data.all isHexChar = true := by
    rw [List.all_eq_true]
    intro c hc
    exact (freshHexAux_wf 24 n c hc).1
  simp [isValidObjectId, h1, h2]

theorem lowerHex_freshHex (n : Nat) : lowerHex (freshHex n) = freshHex n := by
  have h : (freshHexAux 24 n).map lowerHexChar = freshHexAux 24 n := by
    rw [List.map_congr_left (g := id) (fun a ha => (freshHexAux_wf 24 n a ha).2), List.map_id]
  simp [lowerHex, freshHex, h]

theorem parsed_str_freshHex (n : Nat) :
    (MongoId.str (freshHex n)).parsed = some (freshHex n) := by
  simp [MongoId.parsed, freshHex_valid, lowerHex_freshHex]

/-- **C1** (code-bug evaluation).  In `dbExpired` — whose role and
assignment records are string-keyed, the format the repository's own
`create` writes — the single assignment of user `u2` has `expires_at = 5`,
strictly in the past at `now = 100`.  The claim (and spec §8) require
`userHasRole("u2", "moderator") = false`, but the read path never consults
`expires_at` (`user_has_role` matches any `(user_id, role_id)` pair), so
the expired assignment still grants the role.  `getUserRoles` does return
`[]` at this store — not because expiry is filtered, but because
`get_roles_for_user` queries roles by the **ObjectId** form of `role_id`,
which can never match a string-keyed role document. -/
theorem expired_assignment_still_visible :
    (∀ a ∈ dbExpired.userRoles, expiredBefore 100 a = true)
    ∧ AuthorizationService.user_has_role dbExpired "u2" "moderator" = Except.ok true
    ∧ AuthorizationService.get_user_roles dbExpired "u2" = Except.ok [] := by
  decide

/-- **C2**: the admin bypass.  Whenever the role named `admin` resolves and
the user holds it through a non-expired assignment, `userHasPermission`
answers true for **every** permission name — the check returns before any
permission record is consulted, so `p` need not exist anywhere. -/
theorem user_has_permission_admin_bypass (db : DB) (r : Role) (a : Assignment)
    (u p : String) (now : Nat)
    (hr : RoleRepository.get_role_by_name db "admin" = Except.ok (some r))
    (ha : UserRoleRepository.get_user_role_assignment db u r.idStr = Except.ok (some a))
    (hexp : expiredBefore now a = false) :
    AuthorizationService.user_has_permission db u p = Except.ok true := by
  have hrole : AuthorizationService.user_has_role db u "admin" = Except.ok true := by
    simp [AuthorizationService.user_has_role, UserRoleRepository.user_has_role, hr, ha,
      Bind.bind, Except.bind, Pure.pure, Except.pure]
  simp [AuthorizationService.user_has_permission, hrole, Bind.bind, Except.bind,
    Pure.pure, Except.pure]

/-- Witness for C2: the admin user passes a check for a permission name that
exists nowhere in the store. -/
theorem user_has_permission_admin_bypass_witness :
    RoleRepository.get_role_by_name dbAdminW "admin" = Except.ok (some adminRoleW)
    ∧ UserRoleRepository.get_user_role_assignment dbAdminW "ua" adminRoleW.idStr
        = Except.ok (some adminAsgW)
    ∧ expiredBefore 100 adminAsgW = false
    ∧ AuthorizationService.user_has_permission dbAdminW "ua" "no_such_permission"
        = Except.ok true :=
  ⟨by decide, by decide, by decide,
    user_has_permission_admin_bypass dbAdminW adminRoleW adminAsgW "ua" "no_such_permission"
      100 (by decide) (by decide) (by decide)⟩

/-- **C9**: for a user that does not hold the `admin` role,
`userHasPermission(u, p)` answers true exactly when `p` is a member of the
list `getUserPermissions(u)` returns — both run the very same
`get_permissions_for_user` resolution, and store failures propagate
identically on both sides. -/
theorem user_has_permission_iff_member_user_permissions (db : DB) (u p : String)
    (hadmin : AuthorizationService.user_has_role db u "admin" = Except.ok false) :
    (AuthorizationService.user_has_permission db u p = Except.ok true
      ↔ ∃ names, AuthorizationService.get_user_permissions db u = Except.ok names
          ∧ p ∈ names) := by
  cases hps : PermissionRepository.get_permissions_for_user db u with
  | error e =>
    constructor
    · intro hcontra
      simp [AuthorizationService.user_has_permission, hadmin, hps,
        Bind.bind, Except.bind] at hcontra
    · rintro ⟨names, hn, -⟩
      simp [AuthorizationService.get_user_permissions, hps, Bind.bind, Except.bind] at hn
  | ok ps =>
    have h1 : AuthorizationService.user_has_permission db u p
        = Except.ok (ps.any (fun q => q.name == p)) := by
      simp [AuthorizationService.user_has_permission, hadmin, hps,
        Bind.bind, Except.bind, Pure.pure, Except.pure]
    have h2 : AuthorizationService.get_user_permissions db u
        = Except.ok (ps.map Permission.name) := by
      simp [AuthorizationService.get_user_permissions, hps,
        Bind.bind, Except.bind, Pure.pure, Except.pure]
    constructor
    · intro hc
      rw [h1] at hc
      have hany : ps.any (fun q => q.name == p) = true := by simpa using hc
      refine ⟨ps.map Permission.name, h2, ?_⟩
      simp only [List.any_eq_true, beq_iff_eq] at hany
      obtain ⟨q, hq, hqp⟩ := hany
      exact List.mem_map.mpr ⟨q, hq, hqp⟩
    · rintro ⟨names, hn, hp⟩
      rw [h2] at hn
      have hnames : names = ps.map Permission.name := by simpa using hn.symm
      subst hnames
      obtain ⟨q, hq, hqp⟩ := List.mem_map.mp hp
      have hany : ps.any (fun x => x.name == p) = true := by
        simp only [List.any_eq_true, beq_iff_eq]
        exact ⟨q, hq, hqp⟩
      rw [h1, hany]

/-- Witness for C9: the non-admin user `u2` of `dbExpired` and the
permission `read_posts` it can reach. -/
theorem user_has_permission_iff_member_user_permissions_witness :
    AuthorizationService.user_has_role dbExpired "u2" "admin" = Except.ok false
    ∧ (AuthorizationService.user_has_permission dbExpired "u2" "read_posts" = Except.ok true
        ↔ ∃ names, AuthorizationService.get_user_permissions dbExpired "u2" = Except.ok names
            ∧ "read_posts" ∈ names) :=
  ⟨by decide,
    user_has_permission_iff_member_user_permissions dbExpired "u2" "read_posts" (by decide)⟩

/-- **C3** (code-bug evaluation).  Granting while a non-expired assignment
exists is indeed rejected (first half of the claim), but the duplicate
check — `get_user_role_assignment` — matches **any** existing assignment
for the pair, with no expiry filter: at `now = 100`, when the pair's only
assignment expired at time 5, the endpoint still answers the
`AlreadyGranted` conflict instead of inserting the required new
assignment. -/
theorem regrant_after_expiry_rejected :
    (∀ a ∈ dbRegrant.userRoles, expiredBefore 100 a = true)
    ∧ assign_role_to_user_endpoint dbRegrant 100 "granter1" hexD hexA none
        = Except.error ApiErr.alreadyGranted := by
  decide

/-- **C6** (counterexample).  `add_permission_to_role` filters on
`{"_id": ObjectId(role_id)}`, but the repository's own `create` stores the
`_id` as a string (`jsonable_encoder`), so on a store in that format the
update matches no document: the operation reports `False` and the role's
permission set does **not** become `S ∪ {p}` — refuting the claim as
stated. -/
theorem add_permission_string_id_noop_cx :
    (∀ r ∈ dbStrRole.roles, r._id = MongoId.str hexA)
    ∧ RoleRepository.add_permission_to_role dbStrRole hexA hexB
        = Except.ok (dbStrRole, false)
    ∧ (∀ r ∈ dbStrRole.roles, r.permissions.contains hexB = false) := by
  decide

/-- `updateFirst` is the identity when `f` fixes every element. -/
theorem updateFirst_fixed {α : Type} [DecidableEq α] (p : α → Bool) (f : α → α)
    (l : List α) (h : ∀ x ∈ l, f x = x) : updateFirst p f l = (l, false) := by
  induction l with
  | nil => rfl
  | cons x xs ih =>
    cases hpx : p x with
    | true => simp [updateFirst, hpx, h x (by simp)]
    | false =>
      simp only [updateFirst, hpx, Bool.false_eq_true, if_false]
      simp [ih (fun y hy => h y (by simp [hy]))]

/-- **C6** (amended).  For a role stored under the ObjectId form of
`roleId` (the only format the `update_one` filter can match — see the
counterexample for string-keyed roles): `addPermission` makes the
permission set `S ∪ {p}` (`$addToSet`), repeating it changes nothing,
removing an absent `p` is a no-op success, and neither operation ever
introduces a duplicate id. -/
theorem role_permission_set_ops (db : DB) (roleId p : String)
    (hv : isValidObjectId roleId = true) (hok : db.rolesBroken = false) :
    (∀ pre r post, db.roles = pre ++ r :: post →
      (∀ x ∈ pre, (x._id == toObjectId roleId) = false) →
      (r._id == toObjectId roleId) = true →
      ∃ r2, RoleRepository.add_permission_to_role db roleId p
          = Except.ok ({ db with roles := pre ++ r2 :: post }, !(r.permissions.contains p))
        ∧ (∀ q, q ∈ r2.permissions ↔ (q ∈ r.permissions ∨ q = p))
        ∧ (r.permissions.Nodup → r2.permissions.Nodup)
        ∧ r2._id = r._id ∧ r2.name = r.name)
    ∧ (∀ db1 m, RoleRepository.add_permission_to_role db roleId p = Except.ok (db1, m) →
        RoleRepository.add_permission_to_role db1 roleId p = Except.ok (db1, false))
    ∧ ((∀ x ∈ db.roles, x.permissions.contains p = false) →
        RoleRepository.remove_permission_from_role db roleId p = Except.ok (db, false))
    ∧ (∀ pre r post, db.roles = pre ++ r :: post →
      (∀ x ∈ pre, (x._id == toObjectId roleId) = false) →
      (r._id == toObjectId roleId) = true →
      ∃ r2 m, RoleRepository.remove_permission_from_role db roleId p
          = Except.ok ({ db with roles := pre ++ r2 :: post }, m)
        ∧ r2.permissions = r.permissions.filter (fun q => q != p)
        ∧ (r.permissions.Nodup → r2.permissions.Nodup)
        ∧ r2._id = r._id) := by
  refine ⟨?_, ?_, ?_, ?_⟩
  · intro pre r post hsplit hpre hr
    by_cases hm : p ∈ r.permissions
    · refine ⟨r, ?_, ?_, id, rfl, rfl⟩
      · rw [RoleRepository.add_permission_to_role, if_pos hv, if_neg (by simp [hok]), hsplit,
          updateFirst_found _ _ pre r post hpre hr]
        simp [hm]
      · intro q
        constructor
        · intro hq
          exact Or.inl hq
        · rintro (hq | rfl)
          · exact hq
          · exact hm
    · refine ⟨{ r with permissions := r.permissions ++ [p] }, ?_, ?_, ?_, rfl, rfl⟩
      · rw [RoleRepository.add_permission_to_role, if_pos hv, if_neg (by simp [hok]), hsplit,
          updateFirst_found _ _ pre r post hpre hr]
        have hne : ({ r with permissions := r.permissions ++ [p] } : Role) ≠ r := by
          intro he
          have := congrArg Role.permissions he
          simp at this
        simp [hm, hne]
      · intro q
        simp [List.mem_append]
      · intro hnd
        simp only
        rw [List.nodup_append]
        exact ⟨hnd, List.nodup_singleton p,
          fun a ha hap => hm ((List.mem_singleton.mp hap) ▸ ha)⟩
  · intro db1 m hadd
    have hidem := updateFirst_idem (fun r => r._id == toObjectId roleId)
      (fun r => if p ∈ r.permissions then r
                else { r with permissions := r.permissions ++ [p] })
      (by
        intro x
        by_cases hm : p ∈ x.permissions <;> simp [hm])
      (by
        intro x
        by_cases hm : p ∈ x.permissions
        · simp [hm]
        · simp [hm])
      db.roles
    rw [RoleRepository.add_permission_to_role, if_pos hv, if_neg (by simp [hok])] at hadd
    simp only [Except.ok.injEq, Prod.mk.injEq] at hadd
    obtain ⟨hdb1, -⟩ := hadd
    subst hdb1
    rw [RoleRepository.add_permission_to_role, if_pos hv, if_neg (by simp [hok])]
    simp [hidem]
  · intro habs
    rw [RoleRepository.remove_permission_from_role, if_pos hv, if_neg (by simp [hok])]
    rw [updateFirst_fixed _ _ db.roles (by
      intro x hx
      have hfix : x.permissions.filter (fun q => q != p) = x.permissions := by
        rw [List.filter_eq_self]
        intro q hq
        have hqp : q ≠ p := by
          intro he
          have hxp := habs x hx
          rw [he] at hq
          simp [List.contains, List.elem_eq_mem] at hxp
          exact hxp hq
        simpa using hqp
      simp [hfix])]
  · intro pre r post hsplit hpre hr
    refine ⟨{ r with permissions := r.permissions.filter (fun q => q != p) },
      decide (({ r with permissions := r.permissions.filter (fun q => q != p) } : Role) ≠ r),
      ?_, rfl, ?_, rfl⟩
    · rw [RoleRepository.remove_permission_from_role, if_pos hv, if_neg (by simp [hok]), hsplit,
        updateFirst_found _ _ pre r post hpre hr]
    · intro hnd
      exact List.Nodup.filter _ hnd

/-- Witness for the amended C6 at a concrete ObjectId-keyed role. -/
theorem role_permission_set_ops_witness :
    isValidObjectId hexA = true ∧ dbOidRole.rolesBroken = false ∧
    (∃ r2, RoleRepository.add_permission_to_role dbOidRole hexA hexB
        = Except.ok ({ dbOidRole with roles := [] ++ r2 :: [] },
                     !(oidRoleW.permissions.contains hexB))
      ∧ (∀ q, q ∈ r2.permissions ↔ (q ∈ oidRoleW.permissions ∨ q = hexB))
      ∧ (oidRoleW.permissions.Nodup → r2.permissions.Nodup)
      ∧ r2._id = oidRoleW._id ∧ r2.name = oidRoleW.name) :=
  ⟨by decide, rfl,
    (role_permission_set_ops dbOidRole hexA hexB (by decide) rfl).1 [] oidRoleW []
      rfl (by simp) (by decide)⟩

/-- A successful `mapM` of the `ObjectId(role_id)` conversion returns
exactly the ObjectId forms of the assignments' `role_id`s. -/
theorem mapM_roleId_ok_inv (l : List Assignment) (out : List MongoId)
    (h : (l.mapM (fun a =>
      if isValidObjectId a.roleId then Except.ok (toObjectId a.roleId)
      else Except.error DBErr.invalidId)) = Except.ok out) :
    out = l.map (fun a => toObjectId a.roleId) := by
  induction l generalizing out with
  | nil =>
    simp only [List.mapM_nil, Pure.pure, Except.pure, Except.ok.injEq] at h
    exact h.symm
  | cons x xs ih =>
    rw [List.mapM_cons] at h
    cases hv : isValidObjectId x.roleId with
    | false =>
      rw [if_neg (by simp [hv])] at h
      simp [Bind.bind, Except.bind] at h
    | true =>
      rw [if_pos hv] at h
      cases hxs : xs.mapM (fun a =>
          if isValidObjectId a.roleId then Except.ok (toObjectId a.roleId)
          else Except.error DBErr.invalidId) with
      | error e =>
        rw [hxs] at h
        simp [Bind.bind, Except.bind] at h
      | ok ys =>
        rw [hxs] at h
        simp only [Bind.bind, Except.bind, Pure.pure, Except.pure, Except.ok.injEq] at h
        rw [List.map_cons, ← h, ih ys hxs]

/-- Every role the ObjectId `$in` query can match is ObjectId-keyed. -/
theorem resolvedRoles_oid (db : DB) (u : String) (m : Role)
    (hm : m ∈ resolvedRoles db u) : ∃ t, m._id = MongoId.oid t := by
  simp only [resolvedRoles, List.mem_filter] at hm
  obtain ⟨-, hpred⟩ := hm
  simp only [List.contains, List.elem_eq_mem, decide_eq_true_eq, List.mem_map] at hpred
  obtain ⟨a, -, ha⟩ := hpred
  exact ⟨lowerHex a.roleId, by rw [← ha]; rfl⟩

/-- Validating a batch whose head is ObjectId-keyed raises. -/
theorem mapM_parseRole_oid_error (m : Role) (ms : List Role) (t : String)
    (ht : m._id = MongoId.oid t) :
    (m :: ms).mapM parseRole = Except.error DBErr.parseFailure := by
  rw [List.mapM_cons, show parseRole m = Except.error DBErr.parseFailure by
    simp [parseRole, ht, MongoId.parsed]]
  rfl

/-- On healthy collections with well-formed `role_id`s, `get_roles_for_user`
reduces to validating the documents matched by the ObjectId `$in` query. -/
theorem get_roles_for_user_eq_parse (db : DB) (u : String)
    (hur : db.userRolesBroken = false) (hroles : db.rolesBroken = false)
    (hvalid : ∀ a ∈ db.userRoles, isValidObjectId a.roleId = true) :
    RoleRepository.get_roles_for_user db u = (resolvedRoles db u).mapM parseRole := by
  simp only [RoleRepository.get_roles_for_user, findAssignments, hur, Bool.false_eq_true,
    if_false, Bind.bind, Except.bind]
  rw [mapM_roleId_toObjectId_ok _ (fun a ha => hvalid a (List.mem_of_mem_filter ha))]
  simp only [findRoles, hroles, Bool.false_eq_true, if_false]
  rfl

/-- Role resolution can only succeed with the empty list: every document the
ObjectId `$in` query matches is ObjectId-keyed, and an ObjectId-keyed
document fails pydantic validation. -/
theorem get_roles_for_user_ok_nil (db : DB) (u : String) (rs : List Role)
    (h : RoleRepository.get_roles_for_user db u = Except.ok rs) : rs = [] := by
  cases hur : db.userRolesBroken with
  | true =>
    simp [RoleRepository.get_roles_for_user, findAssignments, hur,
      Bind.bind, Except.bind] at h
  | false =>
    cases hmap : (db.userRoles.filter (fun a => a.userId == u)).mapM (fun a =>
        if isValidObjectId a.roleId then Except.ok (toObjectId a.roleId)
        else Except.error DBErr.invalidId) with
    | error e =>
      simp only [RoleRepository.get_roles_for_user, findAssignments, hur,
        Bool.false_eq_true, if_false, Bind.bind, Except.bind, hmap] at h
      exact Except.noConfusion h
    | ok oids =>
      have hoids := mapM_roleId_ok_inv _ _ hmap
      cases hrb : db.rolesBroken with
      | true =>
        simp only [RoleRepository.get_roles_for_user, findAssignments, hur,
          Bool.false_eq_true, if_false, Bind.bind, Except.bind, hmap, findRoles, hrb,
          if_true] at h
        exact Except.noConfusion h
      | false =>
        cases hfil : db.roles.filter (fun r => oids.contains r._id) with
        | nil =>
          simp only [RoleRepository.get_roles_for_user, findAssignments, hur,
            Bool.false_eq_true, if_false, Bind.bind, Except.bind, hmap, findRoles, hrb,
            hfil, List.mapM_nil, Pure.pure, Except.pure, Except.ok.injEq] at h
          exact h.symm
        | cons m ms =>
          have hm : m ∈ db.roles.filter (fun r => oids.contains r._id) := by
            rw [hfil]
            exact List.mem_cons_self m ms
          have hcont : oids.contains m._id = true := (List.mem_filter.mp hm).2
          have hoid : ∃ t, m._id = MongoId.oid t := by
            rw [hoids] at hcont
            simp only [List.contains, List.elem_eq_mem, decide_eq_true_eq,
              List.mem_map] at hcont
            obtain ⟨a, -, ha⟩ := hcont
            exact ⟨lowerHex a.roleId, by rw [← ha]; rfl⟩
          obtain ⟨t, ht⟩ := hoid
          simp only [RoleRepository.get_roles_for_user, findAssignments, hur,
            Bool.false_eq_true, if_false, Bind.bind, Except.bind, hmap, findRoles, hrb,
            hfil, mapM_parseRole_oid_error m ms t ht] at h
          exact Except.noConfusion h

/-- A broken role or assignment collection always fails `get_roles_for_user`. -/
theorem get_roles_for_user_err (db : DB) (u : String)
    (h : db.rolesBroken = true ∨ db.userRolesBroken = true) :
    ∃ e, RoleRepository.get_roles_for_user db u = Except.error e := by
  cases hur : db.userRolesBroken with
  | true =>
    exact ⟨DBErr.storageUnavailable, by
      simp [RoleRepository.get_roles_for_user, findAssignments, hur,
        Bind.bind, Except.bind]⟩
  | false =>
    have hrb : db.rolesBroken = true := by
      rcases h with h | h
      · exact h
      · simp [h] at hur
    cases hmap : (db.userRoles.filter (fun a => a.userId == u)).mapM (fun a =>
        if isValidObjectId a.roleId then Except.ok (toObjectId a.roleId)
        else Except.error DBErr.invalidId) with
    | error e =>
      refine ⟨e, ?_⟩
      simp only [RoleRepository.get_roles_for_user, findAssignments, hur,
        Bool.false_eq_true, if_false, Bind.bind, Except.bind, hmap]
    | ok oids =>
      refine ⟨DBErr.storageUnavailable, ?_⟩
      simp only [RoleRepository.get_roles_for_user, findAssignments, hur,
        Bool.false_eq_true, if_false, Bind.bind, Except.bind, hmap, findRoles, hrb,
        if_true]

/-- Under a broken role or assignment collection `user_has_role` can return
`ok` only as `ok false`, through the role-not-found branch. -/
theorem user_has_role_broken_ok (db : DB) (u rn : String) (b : Bool)
    (h : db.rolesBroken = true ∨ db.userRolesBroken = true)
    (hok : AuthorizationService.user_has_role db u rn = Except.ok b) :
    b = false := by
  rcases h with hrb | hur
  · rw [show AuthorizationService.user_has_role db u rn
        = Except.error DBErr.storageUnavailable by
      simp [AuthorizationService.user_has_role, UserRoleRepository.user_has_role,
        RoleRepository.get_role_by_name, findOneRole, hrb, Bind.bind, Except.bind]] at hok
    cases hok
  · cases hrb : db.rolesBroken with
    | true =>
      rw [show AuthorizationService.user_has_role db u rn
          = Except.error DBErr.storageUnavailable by
        simp [AuthorizationService.user_has_role, UserRoleRepository.user_has_role,
          RoleRepository.get_role_by_name, findOneRole, hrb, Bind.bind, Except.bind]] at hok
      cases hok
    | false =>
      cases hby : RoleRepository.get_role_by_name db rn with
      | error e =>
        rw [show AuthorizationService.user_has_role db u rn = Except.error e by
          simp [AuthorizationService.user_has_role, UserRoleRepository.user_has_role,
            hby, Bind.bind, Except.bind]] at hok
        cases hok
      | ok ro =>
        cases ro with
        | none =>
          rw [show AuthorizationService.user_has_role db u rn = Except.ok false by
            simp [AuthorizationService.user_has_role, UserRoleRepository.user_has_role,
              hby, Bind.bind, Except.bind, Pure.pure, Except.pure]] at hok
          exact (Except.ok.inj hok).symm
        | some r =>
          rw [show AuthorizationService.user_has_role db u rn
              = Except.error DBErr.storageUnavailable by
            simp [AuthorizationService.user_has_role, UserRoleRepository.user_has_role,
              hby, UserRoleRepository.get_user_role_assignment, findOneAssignment, hur,
              Bind.bind, Except.bind]] at hok
          cases hok

/-- `get_permissions_for_user` never reads the permission collection: when
role resolution succeeds it yields `[]`, so `get_permissions_by_ids` is
never invoked and the result is independent of that collection's
availability. -/
theorem get_permissions_for_user_perms_flag (db : DB) (u : String) (b : Bool) :
    PermissionRepository.get_permissions_for_user { db with permsBroken := b } u
      = PermissionRepository.get_permissions_for_user db u := by
  have hgr : RoleRepository.get_roles_for_user { db with permsBroken := b } u
      = RoleRepository.get_roles_for_user db u := by
    simp [RoleRepository.get_roles_for_user, findAssignments, findRoles]
  cases hr : RoleRepository.get_roles_for_user db u with
  | error e =>
    simp [PermissionRepository.get_permissions_for_user, hgr, hr, Bind.bind, Except.bind]
  | ok rs =>
    have hnil : rs = [] := get_roles_for_user_ok_nil db u rs hr
    subst hnil
    simp [PermissionRepository.get_permissions_for_user, hgr, hr, Bind.bind, Except.bind,
      Pure.pure, Except.pure]

/-- **C10** (counterexample).  `hexA` is a valid ObjectId string, no record
is stored under the raw string `hexA`, and `dbOidRole` stores a role under
the ObjectId form of `hexA`.  The claim requires `get_by_id` to return that
record; the code instead finds the document in the fallback query, its
ObjectId `_id` fails `PyObjectId`'s str-schema validation, the exception is
caught, and the function returns `none`. -/
theorem get_by_id_objectid_leg_dead_cx :
    isValidObjectId hexA = true
    ∧ dbOidRole.roles.find? (fun x => x._id == MongoId.str hexA) = none
    ∧ dbOidRole.roles.find? (fun x => x._id == toObjectId hexA) = some oidRoleW
    ∧ RoleRepository.get_by_id dbOidRole hexA = none := by
  decide

/-- **C10** (amended).  `get_by_id` (role and permission flavours) is total:
a storage failure, a malformed id, or a record failing model validation all
yield `none` instead of an exception.  But only the first, raw-string-id
lookup can ever return a record: when it misses, the ObjectId-form fallback
either does not apply (invalid id), finds nothing, or finds an
ObjectId-keyed document — which always fails `PyObjectId`'s str-schema
validation — so a string-id miss yields `none` unconditionally. -/
theorem get_by_id_total_string_leg (db : DB) (id : String) (r : Role) (q : Permission) :
    (db.rolesBroken = true → RoleRepository.get_by_id db id = none)
    ∧ (db.rolesBroken = false →
        db.roles.find? (fun x => x._id == MongoId.str id) = some r →
        (r._id.parsed).isSome = true →
        RoleRepository.get_by_id db id = some r)
    ∧ (db.rolesBroken = false →
        db.roles.find? (fun x => x._id == MongoId.str id) = some r →
        (r._id.parsed).isSome = false →
        RoleRepository.get_by_id db id = none)
    ∧ (db.rolesBroken = false →
        db.roles.find? (fun x => x._id == MongoId.str id) = none →
        RoleRepository.get_by_id db id = none)
    ∧ (db.permsBroken = true → PermissionRepository.get_by_id db id = none)
    ∧ (db.permsBroken = false →
        db.permissions.find? (fun x => x._id == MongoId.str id) = some q →
        (q._id.parsed).isSome = true →
        PermissionRepository.get_by_id db id = some q)
    ∧ (db.permsBroken = false →
        db.permissions.find? (fun x => x._id == MongoId.str id) = some q →
        (q._id.parsed).isSome = false →
        PermissionRepository.get_by_id db id = none)
    ∧ (db.permsBroken = false →
        db.permissions.find? (fun x => x._id == MongoId.str id) = none →
        PermissionRepository.get_by_id db id = none) := by
  refine ⟨?_, ?_, ?_, ?_, ?_, ?_, ?_, ?_⟩
  · intro hb
    simp [RoleRepository.get_by_id, findOneRole, hb, Bind.bind, Except.bind]
  · intro hb hf hp
    simp [RoleRepository.get_by_id, findOneRole, hb, hf, parseRole, hp,
      Bind.bind, Except.bind, Pure.pure, Except.pure]
  · intro hb hf hp
    simp [RoleRepository.get_by_id, findOneRole, hb, hf, parseRole, hp,
      Bind.bind, Except.bind, Pure.pure, Except.pure]
  · intro hb hf1
    by_cases hvalid : isValidObjectId id = true
    · cases hf2 : db.roles.find? (fun x => x._id == toObjectId id) with
      | none =>
        simp [RoleRepository.get_by_id, findOneRole, hb, hf1, hvalid, hf2,
          Bind.bind, Except.bind, Pure.pure, Except.pure]
      | some r2 =>
        have hr2 : r2._id = toObjectId id := by
          simpa using List.find?_some hf2
        have hp : (r2._id.parsed).isSome = false := by
          rw [hr2]
          rfl
        simp [RoleRepository.get_by_id, findOneRole, hb, hf1, hvalid, hf2,
          parseRole, hp, Bind.bind, Except.bind, Pure.pure, Except.pure]
    · simp [RoleRepository.get_by_id, findOneRole, hb, hf1, hvalid,
        Bind.bind, Except.bind, Pure.pure, Except.pure]
  · intro hb
    simp [PermissionRepository.get_by_id, findOnePerm, hb, Bind.bind, Except.bind]
  · intro hb hf hp
    simp [PermissionRepository.get_by_id, findOnePerm, hb, hf, parsePermission, hp,
      Bind.bind, Except.bind, Pure.pure, Except.pure]
  · intro hb hf hp
    simp [PermissionRepository.get_by_id, findOnePerm, hb, hf, parsePermission, hp,
      Bind.bind, Except.bind, Pure.pure, Except.pure]
  · intro hb hf1
    by_cases hvalid : isValidObjectId id = true
    · cases hf2 : db.permissions.find? (fun x => x._id == toObjectId id) with
      | none =>
        simp [PermissionRepository.get_by_id, findOnePerm, hb, hf1, hvalid, hf2,
          Bind.bind, Except.bind, Pure.pure, Except.pure]
      | some q2 =>
        have hq2 : q2._id = toObjectId id := by
          simpa using List.find?_some hf2
        have hp : (q2._id.parsed).isSome = false := by
          rw [hq2]
          rfl
        simp [PermissionRepository.get_by_id, findOnePerm, hb, hf1, hvalid, hf2,
          parsePermission, hp, Bind.bind, Except.bind, Pure.pure, Except.pure]
    · simp [PermissionRepository.get_by_id, findOnePerm, hb, hf1, hvalid,
        Bind.bind, Except.bind, Pure.pure, Except.pure]

/-- Witness for the amended C10: the string-keyed role of `dbStrRole` is
found under its raw string id; a missing permission id yields `none`. -/
theorem get_by_id_total_string_leg_witness :
    dbStrRole.rolesBroken = false
    ∧ dbStrRole.roles.find? (fun x => x._id == MongoId.str hexA) = some viewerRoleW
    ∧ (viewerRoleW._id.parsed).isSome = true
    ∧ RoleRepository.get_by_id dbStrRole hexA = some viewerRoleW
    ∧ dbStrRole.permissions.find? (fun x => x._id == MongoId.str hexB) = none
    ∧ PermissionRepository.get_by_id dbStrRole hexB = none :=
  ⟨rfl, by decide, by decide,
    (get_by_id_total_string_leg dbStrRole hexA viewerRoleW
        ⟨.str hexB, "x", "r", "a", none, 0⟩).2.1 rfl (by decide) (by decide),
    by decide,
    (get_by_id_total_string_leg dbStrRole hexB viewerRoleW
        ⟨.str hexB, "x", "r", "a", none, 0⟩).2.2.2.2.2.2.2 rfl (by decide)⟩

/-- **C4**: every store lookup reachable from the resolver operations has
no exception handler, so storage failures and malformed records propagate
as errors: `userHasRole` fails when the role collection is down, when the
matched role record is malformed, when the assignment collection is down,
or when the matched assignment record is malformed; `userHasPermission`,
`getUserPermissions` and `getUserRoles` fail whenever the role or
assignment collection is down.  The `except` handlers of `get_by_id` and
`get_permissions_by_ids` are unreachable from these operations: role
resolution can only ever produce an empty role list (every document its
ObjectId `$in` query matches is ObjectId-keyed and raises), so
`get_permissions_by_ids` is never invoked and the permission collection is
never read — the last two conjuncts show `userHasPermission` and
`getUserPermissions` are independent of its availability, so no
permission-store failure can arise, let alone be converted into an
ordinary `false`/`[]`. -/
theorem resolver_store_failures_propagate (db : DB) (u p rn : String) (r : Role)
    (a : Assignment) :
    (db.rolesBroken = true →
        AuthorizationService.user_has_role db u rn
          = Except.error DBErr.storageUnavailable)
    ∧ (db.rolesBroken = false →
        db.roles.find? (fun x => x.name == rn) = some r →
        (r._id.parsed).isSome = false →
        AuthorizationService.user_has_role db u rn = Except.error DBErr.parseFailure)
    ∧ (db.rolesBroken = false →
        RoleRepository.get_role_by_name db rn = Except.ok (some r) →
        db.userRolesBroken = true →
        AuthorizationService.user_has_role db u rn
          = Except.error DBErr.storageUnavailable)
    ∧ (db.rolesBroken = false →
        RoleRepository.get_role_by_name db rn = Except.ok (some r) →
        db.userRolesBroken = false →
        db.userRoles.find? (fun x => x.userId == u && x.roleId == r.idStr) = some a →
        (a._id.parsed).isSome = false →
        AuthorizationService.user_has_role db u rn = Except.error DBErr.parseFailure)
    ∧ ((db.rolesBroken = true ∨ db.userRolesBroken = true) →
        ∃ e, AuthorizationService.user_has_permission db u p = Except.error e)
    ∧ ((db.rolesBroken = true ∨ db.userRolesBroken = true) →
        ∃ e, AuthorizationService.get_user_permissions db u = Except.error e)
    ∧ ((db.rolesBroken = true ∨ db.userRolesBroken = true) →
        ∃ e, AuthorizationService.get_user_roles db u = Except.error e)
    ∧ (∀ b, AuthorizationService.user_has_permission { db with permsBroken := b } u p
        = AuthorizationService.user_has_permission db u p)
    ∧ (∀ b, AuthorizationService.get_user_permissions { db with permsBroken := b } u
        = AuthorizationService.get_user_permissions db u) := by
  refine ⟨?_, ?_, ?_, ?_, ?_, ?_, ?_, ?_, ?_⟩
  · intro hb
    simp [AuthorizationService.user_has_role, UserRoleRepository.user_has_role,
      RoleRepository.get_role_by_name, findOneRole, hb, Bind.bind, Except.bind]
  · intro hb hf hp
    simp [AuthorizationService.user_has_role, UserRoleRepository.user_has_role,
      RoleRepository.get_role_by_name, findOneRole, hb, hf, parseRole, hp,
      Bind.bind, Except.bind]
  · intro hb hby hur
    simp [AuthorizationService.user_has_role, UserRoleRepository.user_has_role, hby,
      UserRoleRepository.get_user_role_assignment, findOneAssignment, hur,
      Bind.bind, Except.bind]
  · intro hb hby hur hf hp
    simp [AuthorizationService.user_has_role, UserRoleRepository.user_has_role, hby,
      UserRoleRepository.get_user_role_assignment, findOneAssignment, hur, hf,
      parseAssignment, hp, Bind.bind, Except.bind]
  · intro h
    cases hadm : AuthorizationService.user_has_role db u "admin" with
    | error e =>
      exact ⟨e, by simp [AuthorizationService.user_has_permission, hadm,
        Bind.bind, Except.bind]⟩
    | ok b =>
      have hb0 : b = false := user_has_role_broken_ok db u "admin" b h hadm
      subst hb0
      obtain ⟨e, he⟩ := get_roles_for_user_err db u h
      exact ⟨e, by simp [AuthorizationService.user_has_permission, hadm,
        PermissionRepository.get_permissions_for_user, he, Bind.bind, Except.bind]⟩
  · intro h
    obtain ⟨e, he⟩ := get_roles_for_user_err db u h
    exact ⟨e, by simp [AuthorizationService.get_user_permissions,
      PermissionRepository.get_permissions_for_user, he, Bind.bind, Except.bind]⟩
  · intro h
    obtain ⟨e, he⟩ := get_roles_for_user_err db u h
    exact ⟨e, by simp [AuthorizationService.get_user_roles, he, Bind.bind, Except.bind]⟩
  · intro b
    have hhr : AuthorizationService.user_has_role { db with permsBroken := b } u "admin"
        = AuthorizationService.user_has_role db u "admin" := by
      simp [AuthorizationService.user_has_role, UserRoleRepository.user_has_role,
        RoleRepository.get_role_by_name, findOneRole,
        UserRoleRepository.get_user_role_assignment, findOneAssignment]
    simp only [AuthorizationService.user_has_permission, hhr,
      get_permissions_for_user_perms_flag db u b]
  · intro b
    simp only [AuthorizationService.get_user_permissions,
      get_permissions_for_user_perms_flag db u b]

/-- Witness for C4 on `dbRolesDown` (role collection down): the resolvers
fail with a distinct error instead of returning `false`/`[]`, and
`userHasPermission` does not depend on the permission collection. -/
theorem resolver_store_failures_propagate_witness :
    dbRolesDown.rolesBroken = true
    ∧ AuthorizationService.user_has_role dbRolesDown "u1" "moderator"
        = Except.error DBErr.storageUnavailable
    ∧ (∃ e, AuthorizationService.user_has_permission dbRolesDown "u1" "read_posts"
        = Except.error e)
    ∧ (∃ e, AuthorizationService.get_user_permissions dbRolesDown "u1" = Except.error e)
    ∧ AuthorizationService.user_has_permission
          { dbRolesDown with permsBroken := true } "u1" "read_posts"
        = AuthorizationService.user_has_permission dbRolesDown "u1" "read_posts" :=
  ⟨rfl,
    (resolver_store_failures_propagate dbRolesDown "u1" "read_posts" "moderator"
        viewerRoleW expiredViewerAsg).1 rfl,
    (resolver_store_failures_propagate dbRolesDown "u1" "read_posts" "moderator"
        viewerRoleW expiredViewerAsg).2.2.2.2.1 (Or.inl rfl),
    (resolver_store_failures_propagate dbRolesDown "u1" "read_posts" "moderator"
        viewerRoleW expiredViewerAsg).2.2.2.2.2.1 (Or.inl rfl),
    (resolver_store_failures_propagate dbRolesDown "u1" "read_posts" "moderator"
        viewerRoleW expiredViewerAsg).2.2.2.2.2.2.2.1 true⟩

/-- The `$in` string query matches exactly string-keyed membership. -/
theorem any_str_eq_contains (ids : List String) (s : String) :
    ids.any (fun i => (MongoId.str s == MongoId.str i)) = ids.contains s := by
  rw [Bool.eq_iff_iff]
  simp [List.any_eq_true, List.contains, List.elem_eq_mem]

/-- Deduplication does not change membership tests. -/
theorem contains_dedup (l : List String) (x : String) :
    l.dedup.contains x = l.contains x := by
  by_cases h : x ∈ l
  · simp [List.contains, List.elem_eq_mem, List.mem_dedup, h]
  · simp [List.contains, List.elem_eq_mem, List.mem_dedup, h]

/-- **C7** (counterexample).  At `dbTolerant` the role of user `u7` carries
a dangling permission reference (`hexE` matches no stored permission); the
claim requires the effective-permission computation to skip it silently and
still produce the resolvable permissions.  The code instead fails outright:
the role document matched by the ObjectId `$in` query is ObjectId-keyed and
fails model validation, so `get_permissions_for_user` (and with it
`getUserPermissions`) raises before any permission id is even examined. -/
theorem effective_permissions_fail_not_skip_cx :
    hexE ∈ roleV2.permissions
    ∧ (∀ q ∈ dbTolerant.permissions, q.idStr ≠ hexE)
    ∧ resolvedRoles dbTolerant "u7" = [roleV2]
    ∧ PermissionRepository.get_permissions_for_user dbTolerant "u7"
        = Except.error DBErr.parseFailure
    ∧ AuthorizationService.get_user_permissions dbTolerant "u7"
        = Except.error DBErr.parseFailure := by
  decide

/-- **C7** (amended).  On a store whose permissions are string-keyed (the
format the repository's own `create` writes), `get_permissions_by_ids`
returns exactly the stored permissions whose id is among the requested ids —
missing ids are silently dropped, never an error.  The per-user
effective-permission computation, however, never exercises this tolerance:
when the ObjectId `$in` role query matches nothing the computation returns
the empty list (no permission id is ever resolved), and when it matches any
document that document fails model validation and the computation raises
instead of skipping. -/
theorem get_permissions_tolerant (db : DB) (u : String)
    (hperm : db.permsBroken = false)
    (hstr : ∀ q ∈ db.permissions,
      ∃ s, q._id = MongoId.str s ∧ isValidObjectId s = true ∧ lowerHex s = s)
    (hur : db.userRolesBroken = false) (hroles : db.rolesBroken = false)
    (hvalid : ∀ a ∈ db.userRoles, isValidObjectId a.roleId = true) :
    (∀ ids : List String, PermissionRepository.get_permissions_by_ids db ids
        = db.permissions.filter (fun q => ids.contains q.idStr))
    ∧ (resolvedRoles db u = [] →
        PermissionRepository.get_permissions_for_user db u = Except.ok [])
    ∧ (resolvedRoles db u ≠ [] →
        PermissionRepository.get_permissions_for_user db u
          = Except.error DBErr.parseFailure) := by
  have hbyids : ∀ ids : List String, PermissionRepository.get_permissions_by_ids db ids
      = db.permissions.filter (fun q => ids.contains q.idStr) := by
    intro ids
    have hfilter : db.permissions.filter (fun q => ids.any (fun i => q._id == MongoId.str i))
        = db.permissions.filter (fun q => ids.contains q.idStr) := by
      apply List.filter_congr
      intro q hq
      obtain ⟨s, hid, hval, hlow⟩ := hstr q hq
      have hidstr : q.idStr = s := by
        simp [Permission.idStr, hid, MongoId.parsed, hval, hlow]
      rw [hidstr, hid, any_str_eq_contains]
    have hparseL : (db.permissions.filter
          (fun q => ids.any (fun i => q._id == MongoId.str i))).mapM parsePermission
        = Except.ok (db.permissions.filter
          (fun q => ids.any (fun i => q._id == MongoId.str i))) :=
      mapM_parsePermission_ok _ (fun q hq => by
        obtain ⟨s, hid, hval, -⟩ := hstr q (List.mem_of_mem_filter hq)
        simp [hid, MongoId.parsed, hval])
    have hoidempty : ∀ oids : List String,
        db.permissions.filter
          (fun q => ((oids.filter isValidObjectId).map toObjectId).contains q._id) = [] := by
      intro oids
      rw [List.filter_eq_nil_iff]
      intro q hq hcontra
      obtain ⟨s, hid, -, -⟩ := hstr q hq
      rw [hid] at hcontra
      simp only [List.contains, List.elem_eq_mem, decide_eq_true_eq, List.mem_map] at hcontra
      obtain ⟨i, -, hi⟩ := hcontra
      simp [toObjectId] at hi
    unfold PermissionRepository.get_permissions_by_ids
    simp only [findPerms, hperm, Bool.false_eq_true, if_false, Bind.bind, Except.bind]
    simp only [hparseL]
    by_cases hlen : (db.permissions.filter
        (fun q => ids.any (fun i => q._id == MongoId.str i))).length < ids.length
    · rw [if_pos hlen]
      by_cases hempty : (((ids.filter (fun pid =>
          !(((db.permissions.filter (fun q => ids.any (fun i => q._id == MongoId.str i))).map
            Permission.idStr).contains pid))).filter isValidObjectId).map toObjectId).isEmpty = true
      · rw [if_pos hempty]
        simp only [Pure.pure, Except.pure]
        exact hfilter
      · rw [if_neg hempty]
        simp only [findPerms, hperm, Bool.false_eq_true, if_false, hoidempty,
          List.mapM_nil, Pure.pure, Except.pure]
        simpa using hfilter
    · rw [if_neg hlen]
      simp only [Pure.pure, Except.pure]
      exact hfilter
  refine ⟨hbyids, ?_, ?_⟩
  · intro hempty
    have hgr : RoleRepository.get_roles_for_user db u = Except.ok [] := by
      rw [get_roles_for_user_eq_parse db u hur hroles hvalid, hempty]
      rfl
    simp [PermissionRepository.get_permissions_for_user, hgr, Bind.bind, Except.bind,
      Pure.pure, Except.pure]
  · intro hne
    cases hrr : resolvedRoles db u with
    | nil => exact absurd hrr hne
    | cons m ms =>
      have hm : m ∈ resolvedRoles db u := by
        rw [hrr]
        exact List.mem_cons_self m ms
      obtain ⟨t, ht⟩ := resolvedRoles_oid db u m hm
      have hgr : RoleRepository.get_roles_for_user db u
          = Except.error DBErr.parseFailure := by
        rw [get_roles_for_user_eq_parse db u hur hroles hvalid, hrr,
          mapM_parseRole_oid_error m ms t ht]
      simp [PermissionRepository.get_permissions_for_user, hgr, Bind.bind, Except.bind]

theorem dbTolerant_str_ids :
    ∀ q ∈ dbTolerant.permissions,
      ∃ s, q._id = MongoId.str s ∧ isValidObjectId s = true ∧ lowerHex s = s := by
  intro q hq
  have hcases : q = permRU ∨ q = permWU := by simpa [dbTolerant, mkDB] using hq
  rcases hcases with rfl | rfl
  · exact ⟨hexA, rfl, by decide, by decide⟩
  · exact ⟨hexB, rfl, by decide, by decide⟩

/-- Witness for the amended C7 on `dbTolerant` and user `u7`: the `getByIds`
conjunct at a concrete id list, and the resolution-raises conjunct at the
matched ObjectId-keyed role. -/
theorem get_permissions_tolerant_witness :
    dbTolerant.permsBroken = false
    ∧ (∀ q ∈ dbTolerant.permissions,
        ∃ s, q._id = MongoId.str s ∧ isValidObjectId s = true ∧ lowerHex s = s)
    ∧ dbTolerant.userRolesBroken = false
    ∧ dbTolerant.rolesBroken = false
    ∧ (∀ a ∈ dbTolerant.userRoles, isValidObjectId a.roleId = true)
    ∧ PermissionRepository.get_permissions_by_ids dbTolerant [hexA, hexE]
        = dbTolerant.permissions.filter (fun q => [hexA, hexE].contains q.idStr)
    ∧ PermissionRepository.get_permissions_for_user dbTolerant "u7"
        = Except.error DBErr.parseFailure :=
  ⟨rfl, dbTolerant_str_ids, rfl, rfl, by decide,
    (get_permissions_tolerant dbTolerant "u7" rfl dbTolerant_str_ids rfl rfl
      (by decide)).1 [hexA, hexE],
    (get_permissions_tolerant dbTolerant "u7" rfl dbTolerant_str_ids rfl rfl
      (by decide)).2.2 (by decide)⟩

/-! ## Bootstrap idempotence: supporting lemmas -/

theorem bind_ok_iff {ε α β : Type} (x : Except ε α) (f : α → Except ε β) (b : β) :
    x.bind f = Except.ok b ↔ ∃ a, x = Except.ok a ∧ f a = Except.ok b := by
  cases x <;> simp [Except.bind]

theorem get_permission_by_name_ok_some (db : DB) (nm : String) (p : Permission)
    (h : PermissionRepository.get_permission_by_name db nm = Except.ok (some p)) :
    db.permsBroken = false ∧ db.permissions.find? (fun x => x.name == nm) = some p
      ∧ (p._id.parsed).isSome = true := by
  cases hbrk : db.permsBroken with
  | true => simp [PermissionRepository.get_permission_by_name, findOnePerm, hbrk,
      Bind.bind, Except.bind] at h
  | false =>
    cases hf : db.permissions.find? (fun x => x.name == nm) with
    | none =>
      simp [PermissionRepository.get_permission_by_name, findOnePerm, hbrk, hf,
        Bind.bind, Except.bind, Pure.pure, Except.pure] at h
    | some q =>
      cases hps : (q._id.parsed).isSome with
      | false =>
        simp [PermissionRepository.get_permission_by_name, findOnePerm, hbrk, hf,
          parsePermission, hps, Bind.bind, Except.bind, Pure.pure, Except.pure] at h
      | true =>
        simp [PermissionRepository.get_permission_by_name, findOnePerm, hbrk, hf,
          parsePermission, hps, Bind.bind, Except.bind, Pure.pure, Except.pure] at h
        subst h
        exact ⟨rfl, rfl, hps⟩

theorem get_permission_by_name_ok_none (db : DB) (nm : String)
    (h : PermissionRepository.get_permission_by_name db nm = Except.ok none) :
    db.permsBroken = false ∧ db.permissions.find? (fun x => x.name == nm) = none := by
  cases hbrk : db.permsBroken with
  | true => simp [PermissionRepository.get_permission_by_name, findOnePerm, hbrk,
      Bind.bind, Except.bind] at h
  | false =>
    cases hf : db.permissions.find? (fun x => x.name == nm) with
    | none => exact ⟨rfl, rfl⟩
    | some q =>
      cases hps : (q._id.parsed).isSome with
      | false =>
        simp [PermissionRepository.get_permission_by_name, findOnePerm, hbrk, hf,
          parsePermission, hps, Bind.bind, Except.bind, Pure.pure, Except.pure] at h
      | true =>
        simp [PermissionRepository.get_permission_by_name, findOnePerm, hbrk, hf,
          parsePermission, hps, Bind.bind, Except.bind, Pure.pure, Except.pure] at h

theorem get_permission_by_name_of_find (db : DB) (nm : String) (p : Permission)
    (hok : db.permsBroken = false)
    (hf : db.permissions.find? (fun x => x.name == nm) = some p)
    (hp : (p._id.parsed).isSome = true) :
    PermissionRepository.get_permission_by_name db nm = Except.ok (some p) := by
  simp [PermissionRepository.get_permission_by_name, findOnePerm, hok, hf,
    parsePermission, hp, Bind.bind, Except.bind, Pure.pure, Except.pure]

theorem get_role_by_name_ok_some (db : DB) (nm : String) (r : Role)
    (h : RoleRepository.get_role_by_name db nm = Except.ok (some r)) :
    db.rolesBroken = false ∧ db.roles.find? (fun x => x.name == nm) = some r
      ∧ (r._id.parsed).isSome = true := by
  cases hbrk : db.rolesBroken with
  | true => simp [RoleRepository.get_role_by_name, findOneRole, hbrk,
      Bind.bind, Except.bind] at h
  | false =>
    cases hf : db.roles.find? (fun x => x.name == nm) with
    | none =>
      simp [RoleRepository.get_role_by_name, findOneRole, hbrk, hf,
        Bind.bind, Except.bind, Pure.pure, Except.pure] at h
    | some q =>
      cases hps : (q._id.parsed).isSome with
      | false =>
        simp [RoleRepository.get_role_by_name, findOneRole, hbrk, hf,
          parseRole, hps, Bind.bind, Except.bind, Pure.pure, Except.pure] at h
      | true =>
        simp [RoleRepository.get_role_by_name, findOneRole, hbrk, hf,
          parseRole, hps, Bind.bind, Except.bind, Pure.pure, Except.pure] at h
        subst h
        exact ⟨rfl, rfl, hps⟩

theorem get_role_by_name_ok_none (db : DB) (nm : String)
    (h : RoleRepository.get_role_by_name db nm = Except.ok none) :
    db.rolesBroken = false ∧ db.roles.find? (fun x => x.name == nm) = none := by
  cases hbrk : db.rolesBroken with
  | true => simp [RoleRepository.get_role_by_name, findOneRole, hbrk,
      Bind.bind, Except.bind] at h
  | false =>
    cases hf : db.roles.find? (fun x => x.name == nm) with
    | none => exact ⟨rfl, rfl⟩
    | some q =>
      cases hps : (q._id.parsed).isSome with
      | false =>
        simp [RoleRepository.get_role_by_name, findOneRole, hbrk, hf,
          parseRole, hps, Bind.bind, Except.bind, Pure.pure, Except.pure] at h
      | true =>
        simp [RoleRepository.get_role_by_name, findOneRole, hbrk, hf,
          parseRole, hps, Bind.bind, Except.bind, Pure.pure, Except.pure] at h

theorem get_role_by_name_of_find (db : DB) (nm : String) (r : Role)
    (hok : db.rolesBroken = false)
    (hf : db.roles.find? (fun x => x.name == nm) = some r)
    (hp : (r._id.parsed).isSome = true) :
    RoleRepository.get_role_by_name db nm = Except.ok (some r) := by
  simp [RoleRepository.get_role_by_name, findOneRole, hok, hf,
    parseRole, hp, Bind.bind, Except.bind, Pure.pure, Except.pure]

theorem user_get_by_name_ok (db : DB) (nm : String) (o : Option User)
    (h : UserRepository.get_by_name db nm = Except.ok o) :
    db.usersBroken = false ∧ db.users.find? (fun u => u.username == nm) = o := by
  cases hbrk : db.usersBroken with
  | true => simp [UserRepository.get_by_name, findOneUser, hbrk] at h
  | false =>
    simp [UserRepository.get_by_name, findOneUser, hbrk] at h
    exact ⟨rfl, h⟩

theorem create_permission_ok (db : DB) (p : Permission) (out : DB × Permission)
    (h : PermissionRepository.create_permission db p = Except.ok out) :
    db.permsBroken = false ∧ out = ({ db with permissions := db.permissions ++ [p] }, p) := by
  cases hbrk : db.permsBroken with
  | true => simp [PermissionRepository.create_permission, hbrk] at h
  | false =>
    cases hdup : db.permissions.any (fun x => x._id == p._id) with
    | true => simp [PermissionRepository.create_permission, hbrk, hdup] at h
    | false =>
      cases hps : (p._id.parsed).isSome with
      | false =>
        simp [PermissionRepository.create_permission, hbrk, hdup, parsePermission, hps,
          Bind.bind, Except.bind] at h
      | true =>
        simp [PermissionRepository.create_permission, hbrk, hdup, parsePermission, hps,
          Bind.bind, Except.bind, Pure.pure, Except.pure] at h
        exact ⟨rfl, h.symm⟩

theorem create_role_ok (db : DB) (r : Role) (out : DB × Role)
    (h : RoleRepository.create_role db r = Except.ok out) :
    db.rolesBroken = false ∧ out = ({ db with roles := db.roles ++ [r] }, r) := by
  cases hbrk : db.rolesBroken with
  | true => simp [RoleRepository.create_role, hbrk] at h
  | false =>
    cases hdup : db.roles.any (fun x => x._id == r._id) with
    | true => simp [RoleRepository.create_role, hbrk, hdup] at h
    | false =>
      cases hps : (r._id.parsed).isSome with
      | false =>
        simp [RoleRepository.create_role, hbrk, hdup, parseRole, hps,
          Bind.bind, Except.bind] at h
      | true =>
        simp [RoleRepository.create_role, hbrk, hdup, parseRole, hps,
          Bind.bind, Except.bind, Pure.pure, Except.pure] at h
        exact ⟨rfl, h.symm⟩

theorem assign_ok (db : DB) (a : Assignment) (out : DB × Assignment)
    (h : UserRoleRepository.assign_role_to_user db a = Except.ok out) :
    db.userRolesBroken = false
      ∧ out = ({ db with userRoles := db.userRoles ++ [a] }, a) := by
  cases hbrk : db.userRolesBroken with
  | true => simp [UserRoleRepository.assign_role_to_user, hbrk] at h
  | false =>
    cases hdup : db.userRoles.any (fun x => x._id == a._id) with
    | true => simp [UserRoleRepository.assign_role_to_user, hbrk, hdup] at h
    | false =>
      cases hps : (a._id.parsed).isSome with
      | false =>
        simp [UserRoleRepository.assign_role_to_user, hbrk, hdup, parseAssignment, hps,
          Bind.bind, Except.bind] at h
      | true =>
        simp [UserRoleRepository.assign_role_to_user, hbrk, hdup, parseAssignment, hps,
          Bind.bind, Except.bind, Pure.pure, Except.pure] at h
        exact ⟨rfl, h.symm⟩

theorem user_create_ok (db : DB) (u : User) (out : DB × User)
    (h : UserRepository.create db u = Except.ok out) :
    db.usersBroken = false ∧ out = ({ db with users := db.users ++ [u] }, u) := by
  cases hbrk : db.usersBroken with
  | true => simp [UserRepository.create, hbrk] at h
  | false =>
    cases hdup : db.users.any (fun x => x._id == u._id) with
    | true => simp [UserRepository.create, hbrk, hdup] at h
    | false =>
      simp [UserRepository.create, hbrk, hdup] at h
      exact ⟨rfl, h.symm⟩

theorem initPermsAux_frame (cfgs : List PermCfg) (db : DB) (now : Nat)
    (out : DB × List String) (h : initPermsAux db now cfgs = Except.ok out) :
    (∃ ext, out.1.permissions = db.permissions ++ ext)
    ∧ out.1.roles = db.roles ∧ out.1.userRoles = db.userRoles ∧ out.1.users = db.users
    ∧ out.1.permsBroken = db.permsBroken ∧ out.1.rolesBroken = db.rolesBroken
    ∧ out.1.userRolesBroken = db.userRolesBroken ∧ out.1.usersBroken = db.usersBroken := by
  induction cfgs generalizing db out with
  | nil =>
    simp only [initPermsAux, Except.ok.injEq] at h
    subst h
    exact ⟨⟨[], by simp⟩, rfl, rfl, rfl, rfl, rfl, rfl, rfl⟩
  | cons cfg rest ih =>
    simp only [initPermsAux, Bind.bind, bind_ok_iff] at h
    obtain ⟨o, ho, h⟩ := h
    cases o with
    | some p =>
      simp only [Bind.bind, bind_ok_iff, Pure.pure, Except.pure, Except.ok.injEq] at h
      obtain ⟨restOut, hrest, h⟩ := h
      subst h
      simpa using ih _ _ hrest
    | none =>
      simp only [Bind.bind, bind_ok_iff, Pure.pure, Except.pure, Except.ok.injEq] at h
      obtain ⟨r, hcr, restOut, hrest, h⟩ := h
      subst h
      obtain ⟨-, hr⟩ := create_permission_ok _ _ _ hcr
      subst hr
      obtain ⟨⟨ext, hext⟩, h2, h3, h4, h5, h6, h7, h8⟩ := ih _ _ hrest
      have hperm : restOut.1.permissions = db.permissions ++ (({ _id := MongoId.str (freshHex db.nextId), name := cfg.name, resource := cfg.resource, action := cfg.action, description := some cfg.description, createdAt := now } : Permission) :: ext) := by
        simpa [List.append_assoc] using hext
      exact ⟨⟨_, hperm⟩, h2, h3, h4, h5, h6, h7, h8⟩

theorem initRolesAux_frame (cfgs : List RoleCfg) (db : DB) (now : Nat)
    (out : DB × List (String × String)) (h : initRolesAux db now cfgs = Except.ok out) :
    (∃ ext, out.1.roles = db.roles ++ ext)
    ∧ out.1.permissions = db.permissions ∧ out.1.userRoles = db.userRoles
    ∧ out.1.users = db.users
    ∧ out.1.permsBroken = db.permsBroken ∧ out.1.rolesBroken = db.rolesBroken
    ∧ out.1.userRolesBroken = db.userRolesBroken ∧ out.1.usersBroken = db.usersBroken := by
  induction cfgs generalizing db out with
  | nil =>
    simp only [initRolesAux, Except.ok.injEq] at h
    subst h
    exact ⟨⟨[], by simp⟩, rfl, rfl, rfl, rfl, rfl, rfl, rfl⟩
  | cons cfg rest ih =>
    simp only [initRolesAux, Bind.bind, bind_ok_iff] at h
    obtain ⟨o, ho, h⟩ := h
    cases o with
    | some r =>
      simp only [Bind.bind, bind_ok_iff, Pure.pure, Except.pure, Except.ok.injEq] at h
      obtain ⟨restOut, hrest, h⟩ := h
      subst h
      simpa using ih _ _ hrest
    | none =>
      simp only [Bind.bind, bind_ok_iff, Pure.pure, Except.pure, Except.ok.injEq] at h
      obtain ⟨r, hcr, restOut, hrest, h⟩ := h
      subst h
      obtain ⟨-, hr⟩ := create_role_ok _ _ _ hcr
      subst hr
      obtain ⟨⟨ext, hext⟩, h2, h3, h4, h5, h6, h7, h8⟩ := ih _ _ hrest
      have hroles2 : restOut.1.roles = db.roles ++ (({ _id := MongoId.str (freshHex db.nextId), name := cfg.name, description := some cfg.description, permissions := cfg.permissions, isSystemRole := cfg.isSystemRole, createdAt := now } : Role) :: ext) := by
        simpa [List.append_assoc] using hext
      exact ⟨⟨_, hroles2⟩, h2, h3, h4, h5, h6, h7, h8⟩

theorem initPermsAux_stable (cfgs : List PermCfg) (db : DB) (now : Nat) (dbp : DB)
    (ids : List String) (h : initPermsAux db now cfgs = Except.ok (dbp, ids)) :
    ∀ (db2 : DB) (now2 : Nat), db2.permissions = dbp.permissions →
      db2.permsBroken = dbp.permsBroken →
      initPermsAux db2 now2 cfgs = Except.ok (db2, ids) := by
  induction cfgs generalizing db ids with
  | nil =>
    intro db2 now2 hp hb
    simp only [initPermsAux, Except.ok.injEq, Prod.mk.injEq] at h
    simp [initPermsAux, h.2]
  | cons cfg rest ih =>
    intro db2 now2 hp hb
    simp only [initPermsAux, Bind.bind, bind_ok_iff] at h
    obtain ⟨o, ho, h⟩ := h
    cases o with
    | some p =>
      simp only [Bind.bind, bind_ok_iff, Pure.pure, Except.pure, Except.ok.injEq,
        Prod.mk.injEq] at h
      obtain ⟨restOut, hrest, hdbp, hids⟩ := h
      obtain ⟨hbrk, hfind, hparse⟩ := get_permission_by_name_ok_some _ _ _ ho
      obtain ⟨⟨ext, hext⟩, -, -, -, hpb, -, -, -⟩ := initPermsAux_frame _ _ _ _ hrest
      have hfind2 : db2.permissions.find? (fun x => x.name == cfg.name) = some p := by
        rw [hp, ← hdbp, hext, List.find?_append, hfind]
        rfl
      have hbrk2 : db2.permsBroken = false := by
        rw [hb, ← hdbp, hpb, hbrk]
      have ho2 : PermissionRepository.get_permission_by_name db2 cfg.name
          = Except.ok (some p) :=
        get_permission_by_name_of_find _ _ _ hbrk2 hfind2 hparse
      have hrest' : initPermsAux db now rest = Except.ok (dbp, restOut.2) := by
        rw [← hdbp]
        exact hrest
      have hrest2 : initPermsAux db2 now2 rest = Except.ok (db2, restOut.2) :=
        ih _ _ hrest' db2 now2 hp hb
      simp only [initPermsAux, Bind.bind, Except.bind, ho2, hrest2]
      simp [Pure.pure, Except.pure, hids]
    | none =>
      simp only [Bind.bind, bind_ok_iff, Pure.pure, Except.pure, Except.ok.injEq,
        Prod.mk.injEq] at h
      obtain ⟨r, hcr, restOut, hrest, hdbp, hids⟩ := h
      obtain ⟨hbrk, hfindnone⟩ := get_permission_by_name_ok_none _ _ ho
      obtain ⟨-, hr⟩ := create_permission_ok _ _ _ hcr
      subst hr
      obtain ⟨⟨ext, hext⟩, -, -, -, hpb, -, -, -⟩ := initPermsAux_frame _ _ _ _ hrest
      have hext2 : restOut.1.permissions = (db.permissions ++ [({ _id := MongoId.str (freshHex db.nextId), name := cfg.name, resource := cfg.resource, action := cfg.action, description := some cfg.description, createdAt := now } : Permission)]) ++ ext := by
        simpa using hext
      have hpb2 : restOut.1.permsBroken = db.permsBroken := by simpa using hpb
      have hfind2 : db2.permissions.find? (fun x => x.name == cfg.name)
          = some ({ _id := MongoId.str (freshHex db.nextId), name := cfg.name, resource := cfg.resource, action := cfg.action, description := some cfg.description, createdAt := now } : Permission) := by
        rw [hp, ← hdbp, hext2, List.find?_append, List.find?_append, hfindnone]
        simp
      have hbrk2 : db2.permsBroken = false := by
        rw [hb, ← hdbp, hpb2, hbrk]
      have hparse2 : ((({ _id := MongoId.str (freshHex db.nextId), name := cfg.name, resource := cfg.resource, action := cfg.action, description := some cfg.description, createdAt := now } : Permission))._id.parsed).isSome = true := by
        simp [parsed_str_freshHex]
      have ho2 : PermissionRepository.get_permission_by_name db2 cfg.name
          = Except.ok (some ({ _id := MongoId.str (freshHex db.nextId), name := cfg.name, resource := cfg.resource, action := cfg.action, description := some cfg.description, createdAt := now } : Permission)) :=
        get_permission_by_name_of_find _ _ _ hbrk2 hfind2 hparse2
      have hrest' : initPermsAux { db with permissions := db.permissions ++ [{ _id := MongoId.str (freshHex db.nextId), name := cfg.name, resource := cfg.resource, action := cfg.action, description := some cfg.description, createdAt := now }], nextId := db.nextId + 1 } now rest = Except.ok (dbp, restOut.2) := by
        rw [← hdbp]
        exact hrest
      have hrest2 : initPermsAux db2 now2 rest = Except.ok (db2, restOut.2) :=
        ih _ _ hrest' db2 now2 hp hb
      simp only [initPermsAux, Bind.bind, Except.bind, ho2, hrest2]
      simp [Pure.pure, Except.pure, hids]

theorem initRolesAux_stable (cfgs : List RoleCfg) (db : DB) (now : Nat) (dbr : DB)
    (ids : List (String × String)) (h : initRolesAux db now cfgs = Except.ok (dbr, ids)) :
    ∀ (db2 : DB) (now2 : Nat), db2.roles = dbr.roles →
      db2.rolesBroken = dbr.rolesBroken →
      initRolesAux db2 now2 cfgs = Except.ok (db2, ids) := by
  induction cfgs generalizing db ids with
  | nil =>
    intro db2 now2 hp hb
    simp only [initRolesAux, Except.ok.injEq, Prod.mk.injEq] at h
    simp [initRolesAux, h.2]
  | cons cfg rest ih =>
    intro db2 now2 hp hb
    simp only [initRolesAux, Bind.bind, bind_ok_iff] at h
    obtain ⟨o, ho, h⟩ := h
    cases o with
    | some r =>
      simp only [Bind.bind, bind_ok_iff, Pure.pure, Except.pure, Except.ok.injEq,
        Prod.mk.injEq] at h
      obtain ⟨restOut, hrest, hdbr, hids⟩ := h
      obtain ⟨hbrk, hfind, hparse⟩ := get_role_by_name_ok_some _ _ _ ho
      obtain ⟨⟨ext, hext⟩, -, -, -, -, hpb, -, -⟩ := initRolesAux_frame _ _ _ _ hrest
      have hfind2 : db2.roles.find? (fun x => x.name == cfg.name) = some r := by
        rw [hp, ← hdbr, hext, List.find?_append, hfind]
        rfl
      have hbrk2 : db2.rolesBroken = false := by
        rw [hb, ← hdbr, hpb, hbrk]
      have ho2 : RoleRepository.get_role_by_name db2 cfg.name = Except.ok (some r) :=
        get_role_by_name_of_find _ _ _ hbrk2 hfind2 hparse
      have hrest3 : initRolesAux db now rest = Except.ok (dbr, restOut.2) := by
        rw [← hdbr]
        exact hrest
      have hrest2 : initRolesAux db2 now2 rest = Except.ok (db2, restOut.2) :=
        ih _ _ hrest3 db2 now2 hp hb
      simp only [initRolesAux, Bind.bind, Except.bind, ho2, hrest2]
      simp [Pure.pure, Except.pure, hids]
    | none =>
      simp only [Bind.bind, bind_ok_iff, Pure.pure, Except.pure, Except.ok.injEq,
        Prod.mk.injEq] at h
      obtain ⟨r, hcr, restOut, hrest, hdbr, hids⟩ := h
      obtain ⟨hbrk, hfindnone⟩ := get_role_by_name_ok_none _ _ ho
      obtain ⟨-, hr⟩ := create_role_ok _ _ _ hcr
      subst hr
      obtain ⟨⟨ext, hext⟩, -, -, -, -, hpb, -, -⟩ := initRolesAux_frame _ _ _ _ hrest
      have hext2 : restOut.1.roles = (db.roles ++ [({ _id := MongoId.str (freshHex db.nextId), name := cfg.name, description := some cfg.description, permissions := cfg.permissions, isSystemRole := cfg.isSystemRole, createdAt := now } : Role)]) ++ ext := by
        simpa using hext
      have hpb2 : restOut.1.rolesBroken = db.rolesBroken := by simpa using hpb
      have hfind2 : db2.roles.find? (fun x => x.name == cfg.name)
          = some ({ _id := MongoId.str (freshHex db.nextId), name := cfg.name, description := some cfg.description, permissions := cfg.permissions, isSystemRole := cfg.isSystemRole, createdAt := now } : Role) := by
        rw [hp, ← hdbr, hext2, List.find?_append, List.find?_append, hfindnone]
        simp
      have hbrk2 : db2.rolesBroken = false := by
        rw [hb, ← hdbr, hpb2, hbrk]
      have hparse2 : ((({ _id := MongoId.str (freshHex db.nextId), name := cfg.name, description := some cfg.description, permissions := cfg.permissions, isSystemRole := cfg.isSystemRole, createdAt := now } : Role))._id.parsed).isSome = true := by
        simp [parsed_str_freshHex]
      have ho2 : RoleRepository.get_role_by_name db2 cfg.name
          = Except.ok (some ({ _id := MongoId.str (freshHex db.nextId), name := cfg.name, description := some cfg.description, permissions := cfg.permissions, isSystemRole := cfg.isSystemRole, createdAt := now } : Role)) :=
        get_role_by_name_of_find _ _ _ hbrk2 hfind2 hparse2
      have hrest3 : initRolesAux { db with roles := db.roles ++ [({ _id := MongoId.str (freshHex db.nextId), name := cfg.name, description := some cfg.description, permissions := cfg.permissions, isSystemRole := cfg.isSystemRole, createdAt := now } : Role)], nextId := db.nextId + 1 } now rest = Except.ok (dbr, restOut.2) := by
        rw [← hdbr]
        exact hrest
      have hrest2 : initRolesAux db2 now2 rest = Except.ok (db2, restOut.2) :=
        ih _ _ hrest3 db2 now2 hp hb
      have hids2 : (cfg.name, freshHex db.nextId) :: restOut.2 = ids := by
        simpa [Role.idStr, parsed_str_freshHex] using hids
      simp only [initRolesAux, Bind.bind, Except.bind, ho2, hrest2]
      simp [Pure.pure, Except.pure, hids2, Role.idStr, parsed_str_freshHex]

theorem gura_ok_flags (db : DB) (uid rid : String) (o : Option Assignment)
    (h : UserRoleRepository.get_user_role_assignment db uid rid = Except.ok o) :
    db.userRolesBroken = false := by
  cases hbrk : db.userRolesBroken with
  | true =>
    simp [UserRoleRepository.get_user_role_assignment, findOneAssignment, hbrk,
      Bind.bind, Except.bind] at h
  | false => rfl

theorem gura_congr (db db2 : DB) (uid rid : String)
    (h1 : db2.userRoles = db.userRoles) (h2 : db2.userRolesBroken = db.userRolesBroken) :
    UserRoleRepository.get_user_role_assignment db2 uid rid
      = UserRoleRepository.get_user_role_assignment db uid rid := by
  simp [UserRoleRepository.get_user_role_assignment, findOneAssignment, h1, h2]

theorem user_get_by_name_congr (db db2 : DB) (nm : String)
    (h1 : db2.users = db.users) (h2 : db2.usersBroken = db.usersBroken) :
    UserRepository.get_by_name db2 nm = UserRepository.get_by_name db nm := by
  simp [UserRepository.get_by_name, findOneUser, h1, h2]

theorem gura_isSome (db : DB) (uid rid : String)
    (hok : db.userRolesBroken = false)
    (hparse : ∀ a ∈ db.userRoles, (a._id.parsed).isSome = true)
    (hex : ∃ a, a ∈ db.userRoles ∧ (a.userId == uid && a.roleId == rid) = true) :
    ∃ x, UserRoleRepository.get_user_role_assignment db uid rid = Except.ok (some x) := by
  have hfind : (db.userRoles.find? (fun a => a.userId == uid && a.roleId == rid)).isSome := by
    rw [List.find?_isSome]
    exact hex
  obtain ⟨x, hx⟩ := Option.isSome_iff_exists.mp hfind
  have hxparse : (x._id.parsed).isSome = true := hparse x (List.mem_of_find?_eq_some hx)
  exact ⟨x, by
    simp [UserRoleRepository.get_user_role_assignment, findOneAssignment, hok, hx,
      parseAssignment, hxparse, Bind.bind, Except.bind, Pure.pure, Except.pure]⟩

theorem create_admin_user_noop (db2 : DB) (now2 : Nat) (rid : String) (au : User)
    (hby : UserRepository.get_by_name db2 "admin" = Except.ok (some au))
    (hgura : ∃ x, UserRoleRepository.get_user_role_assignment db2 au.idStr rid
        = Except.ok (some x)) :
    InitializationService.create_admin_user db2 now2 rid = Except.ok (db2, au) := by
  obtain ⟨x, hx⟩ := hgura
  simp only [InitializationService.create_admin_user, Bind.bind, Except.bind, hby, hx]
  simp [Pure.pure, Except.pure]

theorem create_admin_user_props (db : DB) (now : Nat) (rid : String) (dba : DB) (u : User)
    (hA : ∀ a ∈ db.userRoles, (a._id.parsed).isSome = true)
    (h : InitializationService.create_admin_user db now rid = Except.ok (dba, u)) :
    dba.permissions = db.permissions ∧ dba.roles = db.roles
    ∧ dba.permsBroken = db.permsBroken ∧ dba.rolesBroken = db.rolesBroken
    ∧ ∀ now2 : Nat, InitializationService.create_admin_user dba now2 rid
        = Except.ok (dba, u) := by
  simp only [InitializationService.create_admin_user, Bind.bind, bind_ok_iff] at h
  obtain ⟨o, ho, h⟩ := h
  cases o with
  | none =>
    simp only [Bind.bind, bind_ok_iff, Pure.pure, Except.pure, Except.ok.injEq,
      Prod.mk.injEq] at h
    obtain ⟨r, hcrU, r2, hasg, hdba, hu⟩ := h
    obtain ⟨husersB, hfindnone⟩ := user_get_by_name_ok _ _ _ ho
    obtain ⟨-, hrEq⟩ := user_create_ok _ _ _ hcrU
    subst hrEq
    obtain ⟨hurB, hr2Eq⟩ := assign_ok _ _ _ hasg
    subst hr2Eq
    subst hdba
    subst hu
    refine ⟨by simp, by simp, by simp, by simp, ?_⟩
    intro now2
    refine create_admin_user_noop _ now2 rid _ ?_ ?_
    · simp [UserRepository.get_by_name, findOneUser, husersB, List.find?_append, hfindnone]
    · refine gura_isSome _ _ rid (by simpa using hurB) ?_ ⟨_, List.mem_append_right _ (List.mem_singleton_self _), by simp⟩
      intro a ha
      simp only at ha
      rcases List.mem_append.mp ha with ha | ha
      · exact hA a ha
      · rcases List.mem_singleton.mp ha with rfl
        simp [parsed_str_freshHex]
  | some u0 =>
    simp only [Bind.bind, bind_ok_iff] at h
    obtain ⟨oa, hoa, h⟩ := h
    cases oa with
    | some a1 =>
      simp only [Option.isNone, Bool.false_eq_true, if_false, Pure.pure, Except.pure,
        Except.ok.injEq, Prod.mk.injEq] at h
      obtain ⟨hdba, hu⟩ := h
      subst hdba
      subst hu
      refine ⟨rfl, rfl, rfl, rfl, ?_⟩
      intro now2
      exact create_admin_user_noop _ now2 rid _ ho ⟨a1, hoa⟩
    | none =>
      simp only [Option.isNone, if_true, Bind.bind, bind_ok_iff, Pure.pure, Except.pure,
        Except.ok.injEq, Prod.mk.injEq] at h
      obtain ⟨r, hasg, hdba, hu⟩ := h
      obtain ⟨hurB, hrEq⟩ := assign_ok _ _ _ hasg
      subst hrEq
      subst hdba
      subst hu
      obtain ⟨husersB, hfind⟩ := user_get_by_name_ok _ _ _ ho
      refine ⟨by simp, by simp, by simp, by simp, ?_⟩
      intro now2
      refine create_admin_user_noop _ now2 rid _ ?_ ?_
      · rw [user_get_by_name_congr db _ "admin" (by simp) (by simp)]
        exact ho
      · refine gura_isSome _ _ rid (by simpa using hurB) ?_ ⟨_, List.mem_append_right _ (List.mem_singleton_self _), by simp⟩
        intro a ha
        simp only at ha
        rcases List.mem_append.mp ha with ha | ha
        · exact hA a ha
        · rcases List.mem_singleton.mp ha with rfl
          simp [parsed_str_freshHex]

/-- **C8**: bootstrap is idempotent.  If one run of
`initialize_authorization_system` succeeds (on a store whose assignment
records validate), a second consecutive run succeeds, returns exactly the
same permission ids, role ids and admin id, and leaves the store exactly
unchanged: every default permission, role, account and grant is looked up
by name (or by the `(user, role)` pair) and reused — nothing is created
twice and no description is overwritten. -/
theorem bootstrap_idempotent (db : DB) (now now2 : Nat) (db1 : DB)
    (res : List String × List (String × String) × String)
    (hA : ∀ a ∈ db.userRoles, (a._id.parsed).isSome = true)
    (h : InitializationService.initialize_authorization_system db now
        = Except.ok (db1, res)) :
    InitializationService.initialize_authorization_system db1 now2
      = Except.ok (db1, res) := by
  obtain ⟨pids, rids, aid⟩ := res
  simp only [InitializationService.initialize_authorization_system, Bind.bind, bind_ok_iff,
    Pure.pure, Except.pure, Except.ok.injEq, Prod.mk.injEq] at h
  obtain ⟨rp, hperms, rr, hroles, ra, hadmin, hdb1, hpids, hrids, haid⟩ := h
  obtain ⟨dbp, pids0⟩ := rp
  obtain ⟨dbr, rids0⟩ := rr
  obtain ⟨dba, au⟩ := ra
  simp only at hperms hroles hadmin hdb1 hpids hrids haid
  subst hdb1
  subst hpids
  subst hrids
  subst haid
  obtain ⟨⟨extP, hPperm⟩, hProles, hPur, hPusers, hPpb, hPrb, hPub, hPusb⟩ :=
    initPermsAux_frame _ _ _ _ hperms
  obtain ⟨⟨extR, hRroles⟩, hRperm, hRur, hRusers, hRpb, hRrb, hRub, hRusb⟩ :=
    initRolesAux_frame _ _ _ _ hroles
  have hAdbr : ∀ a ∈ dbr.userRoles, (a._id.parsed).isSome = true := by
    intro a ha
    rw [hRur, hPur] at ha
    exact hA a ha
  obtain ⟨hApermEq, hAroleEq, hApb, hArb, hAstable⟩ :=
    create_admin_user_props _ _ _ _ _ hAdbr hadmin
  have h1 : InitializationService.initialize_permissions dba now2 = Except.ok (dba, pids0) := by
    refine initPermsAux_stable _ _ _ _ _ hperms dba now2 ?_ ?_
    · rw [hApermEq, hRperm]
    · rw [hApb, hRpb]
  have h2 : InitializationService.initialize_roles dba now2 pids0
      = Except.ok (dba, rids0) := by
    refine initRolesAux_stable _ _ _ _ _ hroles dba now2 ?_ ?_
    · rw [hAroleEq]
    · rw [hArb]
  have h3 := hAstable now2
  simp only [InitializationService.initialize_authorization_system, Bind.bind, Except.bind,
    h1, h2, h3]
  simp [Pure.pure, Except.pure]

/-- Witness for C8: a double run from the empty store. -/
theorem bootstrap_idempotent_witness :
    (∀ a ∈ (mkDB [] [] [] []).userRoles, (a._id.parsed).isSome = true)
    ∧ ∃ db1 res,
        InitializationService.initialize_authorization_system (mkDB [] [] [] []) 7
          = Except.ok (db1, res)
        ∧ InitializationService.initialize_authorization_system db1 9
          = Except.ok (db1, res) := by
  refine ⟨by decide, ?_⟩
  cases hh : InitializationService.initialize_authorization_system (mkDB [] [] [] []) 7 with
  | error e =>
    have hok : (InitializationService.initialize_authorization_system
        (mkDB [] [] [] []) 7).isOk = true := by decide
    rw [hh] at hok
    simp [Except.isOk, Except.toBool] at hok
  | ok r =>
    obtain ⟨db1, res⟩ := r
    exact ⟨db1, res, rfl,
      bootstrap_idempotent (mkDB [] [] [] []) 7 9 db1 res (by decide) hh⟩

end CRM
